import Mathlib

/-
Verification of the UITARS vision-grounded UI action interpreter and
recovery execution loop (src/database/agents/uitars.py and
src/agent_tools/image.py) against its natural-language specification.

Python strings are modelled as `List Char`; Python floats are modelled as
exact rationals (`ℚ`) resp. exact real arithmetic discretised to `ℕ`
(float `math.sqrt` composed with `math.floor`/`math.ceil` is modelled by
the exact integer square root, using the identities
`⌊√(a/b)⌋ = Nat.sqrt (a / b)` and `⌈x / f⌉ = ⌈⌈x⌉ / f⌉`).
Python dicts are modelled as insertion-ordered association lists, and
exceptions as `Except`/`Option` results.
-/

deriving instance DecidableEq for Except

namespace R2

abbrev Chars := List Char

/-- Whitespace test matching the characters Python `str.strip` and friends
remove (space, tab, newline, carriage return, vertical tab, form feed). -/
def isSpacePy (c : Char) : Bool :=
  c == ' ' || c == '\t' || c == '\n' || c == '\r' || c == Char.ofNat 11 || c == Char.ofNat 12

/-- Model of Python `str.lstrip()` (no argument form). -/
def lstripL (s : Chars) : Chars := s.dropWhile isSpacePy

/-- Model of Python `str.rstrip()` (no argument form). -/
def rstripL (s : Chars) : Chars := (s.reverse.dropWhile isSpacePy).reverse

/-- Model of Python `str.strip()` (no argument form). -/
def stripL (s : Chars) : Chars := rstripL (lstripL s)

/-- Model of Python `str.rstrip(chars)`: removes trailing characters that
belong to the given set. -/
def rstripSetL (set : Chars) (s : Chars) : Chars :=
  (s.reverse.dropWhile (fun c => set.contains c)).reverse

/-- Fuel-driven worker for `splitOnL`; consumes at least one character per
step, so fuel `s.length + 1` is always enough. -/
def splitOnAux (sep : Chars) : ℕ → Chars → Chars → List Chars
  | 0, rest, acc => [acc.reverse ++ rest]
  | _ + 1, [], acc => [acc.reverse]
  | fuel + 1, c :: rest, acc =>
    if sep.isPrefixOf (c :: rest) then
      acc.reverse :: splitOnAux sep fuel (List.drop (sep.length - 1) rest) []
    else
      splitOnAux sep fuel rest (c :: acc)

/-- Model of Python `str.split(sep)` for a non-empty separator:
non-overlapping, left-to-right. -/
def splitOnL (sep s : Chars) : List Chars :=
  if sep.isEmpty then [s] else splitOnAux sep (s.length + 1) s []

/-- Model of the Python substring test `sub in s` (for non-empty `sub`). -/
def containsL (sub s : Chars) : Bool :=
  sub.isEmpty || 1 < (splitOnL sub s).length

/-- Fuel-driven worker for `replaceL`. -/
def replaceAux (pat rep : Chars) : ℕ → Chars → Chars
  | 0, rest => rest
  | _ + 1, [] => []
  | fuel + 1, c :: rest =>
    if pat.isPrefixOf (c :: rest) then
      rep ++ replaceAux pat rep fuel (List.drop (pat.length - 1) rest)
    else
      c :: replaceAux pat rep fuel rest

/-- Model of Python `str.replace(pat, rep)` for a non-empty pattern. -/
def replaceL (s pat rep : Chars) : Chars :=
  if pat.isEmpty then s else replaceAux pat rep (s.length + 1) s

/-- Model of Python `str.endswith(suffix)`. -/
def endsWithL (suffix s : Chars) : Bool := suffix.isSuffixOf s

/-- Model of Python `str.startswith(p)`. -/
def startsWithL (p s : Chars) : Bool := p.isPrefixOf s

/-- Exact model of a Python float as an unreduced fraction (numerator and
positive denominator).  Arithmetic keeps fractions unreduced so that every
operation is kernel-computable; value-level comparison is `valEq` below. -/
structure PyFloat where
  num : ℤ
  den : ℕ
deriving DecidableEq

/-- Embed a natural number. -/
def PyFloat.ofNat (n : ℕ) : PyFloat := ⟨(n : ℤ), 1⟩

/-- Exact addition of fractions (no reduction). -/
def PyFloat.add (a b : PyFloat) : PyFloat :=
  ⟨a.num * (b.den : ℤ) + b.num * (a.den : ℤ), a.den * b.den⟩

/-- Division of a fraction by a natural number. -/
def PyFloat.divNat (a : PyFloat) (n : ℕ) : PyFloat := ⟨a.num, a.den * n⟩

/-- Multiplication of a fraction by a natural number. -/
def PyFloat.mulNat (a : PyFloat) (n : ℕ) : PyFloat := ⟨a.num * (n : ℤ), a.den⟩

/-- Negation. -/
def PyFloat.neg (a : PyFloat) : PyFloat := ⟨-a.num, a.den⟩

/-- Value equality of two fractions. -/
def PyFloat.valEq (a b : PyFloat) : Prop := a.num * (b.den : ℤ) = b.num * (a.den : ℤ)

/-- The fraction lies in the closed unit interval. -/
def PyFloat.mem01 (a : PyFloat) : Prop := 0 ≤ a.num ∧ a.num ≤ (a.den : ℤ)

instance (a : PyFloat) : Decidable a.mem01 :=
  inferInstanceAs (Decidable (_ ∧ _))

/-- Zero test (Python float truthiness). -/
def PyFloat.isZero (a : PyFloat) : Bool := a.num == 0

/-- The rational value of the fraction. -/
def PyFloat.val (a : PyFloat) : ℚ := (a.num : ℚ) / (a.den : ℚ)

/-- Model of Python `round(x)` on an exact fraction: round half to even. -/
def PyFloat.pyRoundInt (f : PyFloat) : ℤ :=
  let q := f.num.fdiv (f.den : ℤ)
  let r := f.num - q * (f.den : ℤ)
  if 2 * r < (f.den : ℤ) then q
  else if (f.den : ℤ) < 2 * r then q + 1
  else if q % 2 = 0 then q else q + 1

/-- Model of Python `round(x, 3)` on an exact fraction. -/
def PyFloat.round3 (f : PyFloat) : PyFloat := ⟨(f.mulNat 1000).pyRoundInt, 1000⟩

/-- Value of a decimal digit run; `none` when a non-digit occurs. -/
def digitsValAux : Chars → ℕ → Option ℕ
  | [], acc => some acc
  | c :: rest, acc =>
    if c.isDigit then digitsValAux rest (acc * 10 + (c.toNat - 48)) else none

/-- Model of Python `float(s)` restricted to plain decimal literals
(optional sign, digits, optional fractional part); returns `none` where
Python would raise ValueError. -/
def parseRat (s : Chars) : Option PyFloat :=
  let t := stripL s
  let signed : Bool × Chars :=
    match t with
    | '-' :: r => (true, r)
    | '+' :: r => (false, r)
    | _ => (false, t)
  let core := signed.2
  let value : Option PyFloat :=
    match splitOnL ['.'] core with
    | [ip] =>
      if ip.isEmpty then none
      else (digitsValAux ip 0).map (fun n => PyFloat.ofNat n)
    | [ip, fp] =>
      if ip.isEmpty && fp.isEmpty then none
      else
        match digitsValAux ip 0, digitsValAux fp 0 with
        | some a, some b => some ⟨(a * 10 ^ fp.length + b : ℕ), 10 ^ fp.length⟩
        | _, _ => none
    | _ => none
  value.map (fun v => if signed.1 then v.neg else v)

/-- Model of Python `round(a / b)` for naturals: round half to even
(Python 3 banker's rounding; `a / b` with factor 28 is exactly
representable at ties, so the float behaviour coincides). -/
def pyRoundNat (a b : ℕ) : ℕ :=
  let q := a / b
  let r := a % b
  if 2 * r < b then q
  else if b < 2 * r then q + 1
  else if q % 2 = 0 then q else q + 1

/-- Model of Python `round(x)` on a rational: round half to even. -/
def pyRound (x : ℚ) : ℤ :=
  let f := x.floor
  let fr := x - (f : ℚ)
  if fr < 1 / 2 then f
  else if 1 / 2 < fr then f + 1
  else if f % 2 = 0 then f else f + 1

/-- Model of Python `round(x, 3)`. -/
def round3 (x : ℚ) : ℚ := (pyRound (x * 1000) : ℚ) / 1000

/-- Source `round_by_factor`: closest multiple of `factor` (ties to even,
as Python `round`). -/
def round_by_factor (n factor : ℕ) : ℕ := pyRoundNat n factor * factor

/-- Ceiling of the square root of the exact rational `a / b` (`b > 0`):
the smallest `k` with `a ≤ k * k * b`.  Models Python
`math.ceil(math.sqrt(a / b))` in exact arithmetic. -/
def sqrtCeilDiv (a b : ℕ) : ℕ :=
  let n := Nat.sqrt (a / b)
  if n * n * b = a then n else n + 1

/-- Source `smart_resize(height, width, factor, min_pixels, max_pixels)`.
Returns `(h_bar, w_bar)`; raises (models `ValueError`) when the aspect
ratio exceeds the hard bound 200 (`MAX_RATIO`), and models the
`ZeroDivisionError` of the ratio check for a zero dimension.  The two
adjustment branches compute
`floor_by_factor(height / beta, factor)` with `beta = sqrt(h*w/max_pixels)`
(so `height / beta = sqrt(height * max_pixels / width)`) and
`ceil_by_factor(height * beta, factor)` with `beta = sqrt(min_pixels/(h*w))`
(so `height * beta = sqrt(height * min_pixels / width)`), both discretised
exactly through `Nat.sqrt` / `sqrtCeilDiv`. -/
def smart_resize (height width factor min_pixels max_pixels : ℕ) :
    Except Chars (ℕ × ℕ) :=
  if height = 0 ∨ width = 0 then
    .error "division by zero in aspect ratio check".data
  else if 200 * min height width < max height width then
    .error "absolute aspect ratio must be smaller than 200".data
  else
    let h_bar := max factor (round_by_factor height factor)
    let w_bar := max factor (round_by_factor width factor)
    if max_pixels < h_bar * w_bar then
      .ok ((Nat.sqrt (height * max_pixels / width) / factor) * factor,
           (Nat.sqrt (width * max_pixels / height) / factor) * factor)
    else if h_bar * w_bar < min_pixels then
      .ok (((sqrtCeilDiv (height * min_pixels) width + (factor - 1)) / factor) * factor,
           ((sqrtCeilDiv (width * min_pixels) height + (factor - 1)) / factor) * factor)
    else
      .ok (h_bar, w_bar)

/-! ## Call expression parsing (source `parse_action`, lines 99-140) -/

/-- Apostrophe character, used pervasively by the model output grammar. -/
def squote : Char := Char.ofNat 39

/-- Python literal constant values occurring as keyword arguments
(`ast.Constant`). -/
inductive PyValue
  | str (s : Chars)
  | num (f : PyFloat)
  | bool (b : Bool)
  | none
deriving DecidableEq

/-- Keyword-argument value in the parsed AST: either a constant literal or
any other (non-literal) expression. -/
inductive AstArg
  | constant (v : PyValue)
  | nonLiteral
deriving DecidableEq

/-- Model of the `ast.Call` shape that `parse_action` consumes: the
function name (from `Name.id` or `Attribute.attr`) plus the keyword
arguments in source order. -/
structure AstCall where
  funcName : Option Chars
  keywords : List (Chars × AstArg)
deriving DecidableEq

/-- Result dictionary of source `parse_action`: the function name and the
argument mapping, with every non-literal argument value silently mapped to
Python `None` (the `else: value = None` arm of the keyword loop). -/
structure ParsedAction where
  function : Option Chars
  args : List (Chars × PyValue)
deriving DecidableEq

/-- The keyword-value extraction of source `parse_action`: a constant
keeps its value, anything else silently becomes `None`. -/
def astToParsed (c : AstCall) : ParsedAction :=
  { function := c.funcName,
    args := c.keywords.map (fun kv =>
      (kv.1, match kv.2 with
        | .constant v => v
        | .nonLiteral => PyValue.none)) }

/-- Identifier characters of the clause grammar. -/
def isIdentChar (c : Char) : Bool := c.isAlphanum || c == '_'

/-- Leading identifier of a character list. -/
def takeIdent (s : Chars) : Chars × Chars := (s.takeWhile isIdentChar, s.dropWhile isIdentChar)

/-- Expansion of a backslash escape inside a Python string literal
(unknown escapes keep the backslash, as Python does). -/
def escExpand (e : Char) : Chars :=
  if e = 'n' then ['\n']
  else if e = 't' then ['\t']
  else if e = 'r' then ['\r']
  else if e = squote || e = '"' || e = '\\' then [e]
  else ['\\', e]

/-- Scan a Python string literal body up to the closing quote `q`,
expanding escapes; returns the decoded text and the remaining input. -/
def parseStrLit (q : Char) : ℕ → Chars → Option (Chars × Chars)
  | 0, _ => Option.none
  | _ + 1, [] => Option.none
  | fuel + 1, c :: rest =>
    if c = q then some ([], rest)
    else if c = '\\' then
      match rest with
      | [] => Option.none
      | e :: rest2 => (parseStrLit q fuel rest2).map (fun p => (escExpand e ++ p.1, p.2))
    else (parseStrLit q fuel rest).map (fun p => (c :: p.1, p.2))

/-- Skip a balanced expression up to a top-level `,` or `)` (which is not
consumed); models how a non-literal argument expression is passed over. -/
def skipBalanced : ℕ → ℕ → Chars → Option Chars
  | _, 0, _ => Option.none
  | _, _ + 1, [] => Option.none
  | depth, fuel + 1, c :: rest =>
    if depth = 0 && (c = ',' || c = ')') then some (c :: rest)
    else if c = '(' || c = '[' then skipBalanced (depth + 1) fuel rest
    else if c = ')' || c = ']' then
      if depth = 0 then Option.none else skipBalanced (depth - 1) fuel rest
    else skipBalanced depth fuel rest

/-- Parse one argument value: a constant literal produces
`AstArg.constant`, anything else is consumed as a balanced expression and
produces `AstArg.nonLiteral`.  Returns the value and the remaining input
(positioned at the top-level `,` or `)`). -/
def parseArgValue (fuel : ℕ) (s : Chars) : Option (AstArg × Chars) :=
  match s with
  | [] => Option.none
  | c :: rest =>
    if c = squote || c = '"' then
      (parseStrLit c fuel rest).map (fun p => (.constant (.str p.1), p.2))
    else if c.isDigit || c = '.' ||
        ((c = '-' || c = '+') && (match rest with
          | [] => false
          | d :: _ => d.isDigit || d = '.')) then
      let span := (if c = '-' || c = '+' then [c] else []) ++
        (if c = '-' || c = '+' then rest else s).takeWhile (fun d => d.isDigit || d = '.')
      let rest2 := (if c = '-' || c = '+' then rest else s).dropWhile (fun d => d.isDigit || d = '.')
      match parseRat span with
      | some q => some (.constant (.num q), rest2)
      | Option.none => Option.none
    else if isIdentChar c then
      let (id1, rest1) := takeIdent s
      let rest1w := rest1.dropWhile isSpacePy
      let atEnd := match rest1w with
        | [] => false
        | d :: _ => d = ',' || d = ')'
      if id1 = "True".data && atEnd then some (.constant (.bool true), rest1)
      else if id1 = "False".data && atEnd then some (.constant (.bool false), rest1)
      else if id1 = "None".data && atEnd then some (.constant .none, rest1)
      else (skipBalanced 0 fuel s).map (fun r => (.nonLiteral, r))
    else (skipBalanced 0 fuel s).map (fun r => (.nonLiteral, r))

/-- Parse the argument list of a call expression, after the opening
parenthesis.  Keyword arguments are collected; positional arguments are
parsed and dropped (source `parse_action` reads only `call.keywords`). -/
def parseArgsAux : ℕ → Chars → List (Chars × AstArg) → Option (List (Chars × AstArg) × Chars)
  | 0, _, _ => Option.none
  | fuel + 1, s, acc =>
    let s1 := s.dropWhile isSpacePy
    match s1 with
    | [] => Option.none
    | c :: rest =>
      if c = ')' then some (acc.reverse, rest)
      else
        let kwAndRest : Option (Option Chars × Chars) :=
          if isIdentChar c && !c.isDigit then
            let (id1, rest1) := takeIdent s1
            let rest1w := rest1.dropWhile isSpacePy
            match rest1w with
            | '=' :: '=' :: _ => some (Option.none, s1)
            | '=' :: restv => some (some id1, restv.dropWhile isSpacePy)
            | _ => some (Option.none, s1)
          else some (Option.none, s1)
        match kwAndRest with
        | Option.none => Option.none
        | some (kw, sv) =>
          match parseArgValue fuel sv with
          | Option.none => Option.none
          | some (v, rest2) =>
            let acc2 := match kw with
              | some k => (k, v) :: acc
              | Option.none => acc
            let rest2w := rest2.dropWhile isSpacePy
            match rest2w with
            | ',' :: rest3 => parseArgsAux fuel rest3 acc2
            | ')' :: rest3 => some (acc2.reverse, rest3)
            | _ => Option.none

/-- Consume a dotted name, returning its last component (the
`Attribute.attr` that `parse_action` extracts). -/
def dottedNameAux : ℕ → Chars → Chars → Option (Chars × Chars)
  | 0, _, _ => Option.none
  | fuel + 1, lastId, rest =>
    match rest with
    | '.' :: rest1 =>
      let (id2, rest2) := takeIdent rest1
      if id2.isEmpty then Option.none else dottedNameAux fuel id2 rest2
    | _ => some (lastId, rest)

/-- Model of `ast.parse(s, mode="eval")` restricted to a single call
expression over (possibly dotted) names with string, number, boolean and
`None` literal arguments; any other argument expression is kept as
`AstArg.nonLiteral` (matching `ast.Call` keywords whose value is not an
`ast.Constant`).  `none` models a `SyntaxError`; the non-literal fallback
over-approximates the expressions Python accepts, so some inputs on which
`ast.parse` itself raises also parse as non-literal here. -/
def parseClause (s : Chars) : Option AstCall :=
  let (id0, rest0) := takeIdent s
  if id0.isEmpty then Option.none
  else
    let dotted := dottedNameAux (s.length + 1) id0 rest0
    match dotted with
    | Option.none => Option.none
    | some (name, rest1) =>
      match rest1 with
      | '(' :: rest2 =>
        match parseArgsAux (s.length + 1) rest2 [] with
        | Option.none => Option.none
        | some (kws, rest3) =>
          if (rest3.dropWhile isSpacePy).isEmpty then some ⟨some name, kws⟩
          else Option.none
      | _ => Option.none

/-- Source `parse_action`: parse one clause string into the function-name
and keyword dictionary; `none` models the `except`-clause returning
`None`. -/
def parse_action (s : Chars) : Option ParsedAction :=
  (parseClause s).map astToParsed

/-! ## Normalization (source `parse_action_to_structure_output`, lines 220-390) -/

/-- Values stored in the normalized `action_inputs` dictionary: strings or
coordinate boxes (lists of normalized floats). -/
inductive NormVal
  | vStr (s : Chars)
  | vBox (l : List PyFloat)
deriving DecidableEq

/-- Errors raised (as Python exceptions) by the parsing pipeline. -/
inductive PErr
  /-- `ValueError` propagated from `smart_resize`. -/
  | smartErr (msg : Chars)
  /-- `AssertionError` from the assert that the literal `Action:` occurs. -/
  | assertActionMissing
  /-- `ValueError` for a `type(content=...)` clause the pattern misses. -/
  | typePatternNotFound
  /-- `ValueError` carrying the clause that failed to parse as a call. -/
  | cantParse (clause : Chars)
  /-- `AttributeError` from calling `lstrip` on a non-string parameter. -/
  | attributeErr
  /-- `ValueError` from `float()` on a malformed coordinate token. -/
  | floatErr (tok : Chars)
deriving DecidableEq

/-- Insertion with Python dict semantics: update in place when the key
already exists, otherwise append. -/
def dictInsert (k : Chars) (v : NormVal) : List (Chars × NormVal) → List (Chars × NormVal)
  | [] => [(k, v)]
  | (k2, v2) :: rest => if k2 = k then (k2, v) :: rest else (k2, v2) :: dictInsert k v rest

/-- Lookup in the ordered dictionary (Python `dict.get`). -/
def dictGet (k : Chars) : List (Chars × NormVal) → Option NormVal
  | [] => Option.none
  | (k2, v2) :: rest => if k2 = k then some v2 else dictGet k rest

/-- Key-name canonicalization for key-like parameters (the `match param`
block): arrow names drop the prefix and `space` becomes one space. -/
def canonKeyParam (p : Chars) : Chars :=
  if p = "arrowleft".data then "left".data
  else if p = "arrowright".data then "right".data
  else if p = "arrowup".data then "up".data
  else if p = "arrowdown".data then "down".data
  else if p = "space".data then [' ']
  else p

/-- Float each coordinate token and divide by the smart-resize dimension
selected by positional parity: even 0-based indices are x coordinates
(divided by the width), odd indices are y coordinates (divided by the
height). -/
def boxFloats (smartH smartW : ℕ) : List Chars → ℕ → Except PErr (List PyFloat)
  | [], _ => .ok []
  | tok :: rest, idx =>
    match parseRat tok with
    | Option.none => .error (.floatErr tok)
    | some q =>
      let q2 := if (idx + 1) % 2 = 0 then q.divNat smartH else q.divNat smartW
      match boxFloats smartH smartW rest (idx + 1) with
      | .error e => .error e
      | .ok l => .ok (q2 :: l)

/-- Extract the comma-separated numeric tokens of a box parameter:
`param.split("(")[-1].split(")")[0].split(",")`. -/
def boxTokens (p : Chars) : List Chars :=
  splitOnL [','] (List.headD (splitOnL [')'] (List.getLastD (splitOnL ['('] p) [])) [])

/-- A two-number point is expanded into a degenerate four-number box. -/
def expandPoint (l : List PyFloat) : List PyFloat :=
  match l with
  | [a, b] => [a, b, a, b]
  | _ => l

/-- The parameter-normalization loop of `parse_action_to_structure_output`
(lines 328-378).  For each parameter: empty strings are dropped; a
non-string value hits `param.lstrip()` and raises `AttributeError`; for a
`hotkey` action a `key`-containing name is renamed to `hotkey`; a name
containing `press` or `key` has its value canonicalized and stored under
the literal key `key`; then (the `if`/`else` at lines 350-378) a
box-carrying name stores the parsed box, and **any other** name — the
key-like ones included — stores the value again under the stripped
parameter name. -/
def normalizeInputs (action_type : Option Chars) (smartH smartW : ℕ) :
    List (Chars × PyValue) → List (Chars × NormVal) → Except PErr (List (Chars × NormVal))
  | [], dict => .ok dict
  | (pname, pval) :: rest, dict =>
    if pval = PyValue.str [] then normalizeInputs action_type smartH smartW rest dict
    else
      match pval with
      | .str s =>
        let p := lstripL s
        let pn :=
          if action_type = some "hotkey".data && containsL "key".data pname then "hotkey".data
          else pname
        let keyish := containsL "press".data pn || containsL "key".data pn
        let p2 := if keyish then canonKeyParam p else p
        let dict1 := if keyish then dictInsert "key".data (.vStr p2) dict else dict
        if containsL "start_box".data pn || containsL "end_box".data pn then
          match boxFloats smartH smartW (boxTokens p2) 0 with
          | .error e => .error e
          | .ok nums =>
            normalizeInputs action_type smartH smartW rest
              (dictInsert (stripL pn) (.vBox (expandPoint nums)) dict1)
        else
          normalizeInputs action_type smartH smartW rest (dictInsert (stripL pn) (.vStr p2) dict1)
      | _ => .error .attributeErr

/-- One normalized action of the structured output list. -/
structure StructAction where
  reflection : Option Chars
  thought : Option Chars
  action_type : Option Chars
  action_inputs : List (Chars × NormVal)
  text : Chars
deriving DecidableEq

/-- The input after the first occurrence of the marker (`none` when the
marker does not occur); models the scan of `re.search`. -/
def afterFirst (marker : Chars) : ℕ → Chars → Option Chars
  | 0, _ => Option.none
  | _ + 1, [] => Option.none
  | fuel + 1, s =>
    if startsWithL marker s then some (List.drop marker.length s)
    else
      match s with
      | [] => Option.none
      | _ :: rest => afterFirst marker fuel rest

/-- Shortest non-empty prefix of the input whose remainder begins, after
optional whitespace, with the marker; models the lazy regex capture
followed by the lookahead in the thought patterns. -/
def lazyUntilWsMarker (marker : Chars) : ℕ → Chars → Chars → Option Chars
  | 0, _, _ => Option.none
  | _ + 1, _, [] => Option.none
  | fuel + 1, taken, c :: rest =>
    if startsWithL marker (rest.dropWhile isSpacePy) then some (taken ++ [c])
    else lazyUntilWsMarker marker fuel (taken ++ [c]) rest

/-- Shortest non-empty prefix of the input followed immediately by the
literal marker; returns the capture and the input after the marker
(models the lazy capture before a literal in the reflection pattern). -/
def lazyUntilMarker (marker : Chars) : ℕ → Chars → Chars → Option (Chars × Chars)
  | 0, _, _ => Option.none
  | _ + 1, _, [] => Option.none
  | fuel + 1, taken, c :: rest =>
    if startsWithL marker rest then some (taken ++ [c], List.drop marker.length rest)
    else lazyUntilMarker marker fuel (taken ++ [c]) rest

/-- Capture of the pattern suffix `(.+?)(?=\s*Action: |$)` starting after
a header marker: the lazy prefix before a whitespace-then-`Action: `
lookahead, or the whole (non-empty) remainder. -/
def captureToAction (r : Chars) : Option Chars :=
  match lazyUntilWsMarker "Action: ".data (r.length + 1) [] r with
  | some cap => some cap
  | Option.none => if r.isEmpty then Option.none else some r

/-- The `(reflection, thought)` extraction of lines 266-281: the header
prefix selects one of three regex patterns with one or two capture
groups. -/
def extractThought (text : Chars) : Option Chars × Option Chars :=
  if startsWithL "Reflection:".data text then
    match afterFirst "Reflection: ".data (text.length + 1) text with
    | Option.none => (Option.none, Option.none)
    | some r1 =>
      match lazyUntilMarker "Action_Summary: ".data (r1.length + 1) [] r1 with
      | Option.none => (Option.none, Option.none)
      | some (g1, r2) =>
        match captureToAction r2 with
        | Option.none => (Option.none, Option.none)
        | some g2 => (some (stripL g1), some (stripL g2))
  else if ¬startsWithL "Thought:".data text && startsWithL "Action_Summary:".data text then
    match afterFirst "Action_Summary: ".data (text.length + 1) text with
    | Option.none => (Option.none, Option.none)
    | some r =>
      match captureToAction r with
      | Option.none => (Option.none, Option.none)
      | some g => (Option.none, some (stripL g))
  else
    match afterFirst "Thought: ".data (text.length + 1) text with
    | Option.none => (Option.none, Option.none)
    | some r =>
      match captureToAction r with
      | Option.none => (Option.none, Option.none)
      | some g => (Option.none, some (stripL g))

/-- Decimal digits of a natural number (Python `str(int)`). -/
def natChars (n : ℕ) : Chars := Nat.toDigits 10 n

/-- Body matcher for one `<point>x y</point>` occurrence: digits,
whitespace, digits, closing tag; returns both numbers and the rest. -/
def matchPointBody (s : Chars) : Option (ℕ × ℕ × Chars) :=
  let x := s.takeWhile Char.isDigit
  let s1 := s.dropWhile Char.isDigit
  if x.isEmpty then Option.none
  else
    let ws := s1.takeWhile isSpacePy
    let s2 := s1.dropWhile isSpacePy
    if ws.isEmpty then Option.none
    else
      let y := s2.takeWhile Char.isDigit
      let s3 := s2.dropWhile Char.isDigit
      if y.isEmpty then Option.none
      else if startsWithL "</point>".data s3 then
        match digitsValAux x 0, digitsValAux y 0 with
        | some xv, some yv => some (xv, yv, List.drop 8 s3)
        | _, _ => Option.none
      else Option.none

/-- Worker replacing every `<point>x y</point>` by `(x,y)`. -/
def convertPointAux : ℕ → Chars → Chars
  | 0, rest => rest
  | _ + 1, [] => []
  | fuel + 1, c :: rest =>
    if startsWithL "<point>".data (c :: rest) then
      match matchPointBody (List.drop 7 (c :: rest)) with
      | some (xv, yv, rest2) =>
        '(' :: natChars xv ++ [','] ++ natChars yv ++ [')'] ++ convertPointAux fuel rest2
      | Option.none => c :: convertPointAux fuel rest
    else c :: convertPointAux fuel rest

/-- Source `convert_point_to_coordinates`: remove `[EOS]`, rewrite paired
point tags into plain coordinates, and strip. -/
def convert_point_to_coordinates (text : Chars) : Chars :=
  let t1 := replaceL text "[EOS]".data []
  stripL (convertPointAux (t1.length + 1) t1)

/-- Worker for `escape_single_quotes`, remembering the original previous
character for the lookbehind. -/
def escSQAux : Chars → Option Char → Chars
  | [], _ => []
  | c :: rest, prev =>
    if c = squote && prev ≠ some '\\' then '\\' :: c :: escSQAux rest (some c)
    else c :: escSQAux rest (some c)

/-- Source `escape_single_quotes`: backslash-escape each quote that is not
already preceded by a backslash (the regex lookbehind inspects the
original preceding character). -/
def escape_single_quotes (s : Chars) : Chars := escSQAux s Option.none

/-- Lazy capture of `(.*?)'\)` without DOTALL: shortest (possibly empty)
run of non-newline characters up to a quote-parenthesis close. -/
def lazyCapToQuoteParen : ℕ → Chars → Option (Chars × Chars)
  | 0, _ => Option.none
  | _ + 1, [] => Option.none
  | fuel + 1, c :: rest =>
    if c = squote && startsWithL [')'] rest then some ([], List.drop 1 rest)
    else if c = '\n' then Option.none
    else (lazyCapToQuoteParen fuel rest).map (fun p => (c :: p.1, p.2))

/-- Worker for the `re.sub` that replaces every match of
`type\(content='(.*?)'\)` by its capture group; the flag records whether
any match was found (the preceding `re.search`). -/
def typeSubAux : ℕ → Chars → Bool × Chars
  | 0, rest => (false, rest)
  | _ + 1, [] => (false, [])
  | fuel + 1, c :: rest =>
    if startsWithL ("type(content=".data ++ [squote]) (c :: rest) then
      match lazyCapToQuoteParen fuel (List.drop 14 (c :: rest)) with
      | some (cap, rest2) =>
        let r := typeSubAux fuel rest2
        (true, cap ++ r.2)
      | Option.none =>
        let r := typeSubAux fuel rest
        (r.1, c :: r.2)
    else
      let r := typeSubAux fuel rest
      (r.1, c :: r.2)

/-- The special-case rewriting of a `type(content=...)` clause
(lines 288-306): ensure a closing parenthesis, replace the matched
pattern by its raw content (raising when the pattern is absent), then
re-escape single quotes and rebuild the canonical clause text. -/
def fixTypeClause (clause : Chars) : Except PErr Chars :=
  if containsL "type(content".data clause then
    let s := if endsWithL [')'] (stripL clause) then clause else stripL clause ++ [')']
    match typeSubAux (s.length + 1) s with
    | (false, _) => .error .typePatternNotFound
    | (true, content) =>
      .ok ("type(content=".data ++ [squote] ++ escape_single_quotes content ++ [squote, ')'])
  else .ok clause

/-- Final per-clause parenthesis repair (lines 307-308). -/
def ensureParen (clause : Chars) : Chars :=
  if endsWithL [')'] (stripL clause) then clause else stripL clause ++ [')']

/-- Run `fixTypeClause` then `ensureParen` over every raw clause. -/
def prepareClauses : List Chars → Except PErr (List Chars)
  | [] => .ok []
  | c :: rest =>
    match fixTypeClause c with
    | .error e => .error e
    | .ok c1 =>
      match prepareClauses rest with
      | .error e => .error e
      | .ok others => .ok (ensureParen c1 :: others)

/-- Parse every prepared clause (newlines re-escaped, left-stripped);
the first failure raises the `ValueError` carrying the raw clause. -/
def parseClauses : List Chars → Except PErr (List ParsedAction)
  | [] => .ok []
  | c :: rest =>
    match parse_action (lstripL (replaceL c ['\n'] ['\\', 'n'])) with
    | Option.none => .error (.cantParse c)
    | some pa =>
      match parseClauses rest with
      | .error e => .error e
      | .ok others => .ok (pa :: others)

/-- Normalize every parsed clause into a `StructAction` (lines 315-389):
rename `press`/`release`, run the parameter loop, attach the shared
reflection/thought and the preprocessed text. -/
def buildActions (reflection thought : Option Chars) (text : Chars) (smartH smartW : ℕ) :
    List ParsedAction → Except PErr (List StructAction)
  | [] => .ok []
  | pa :: rest =>
    let at0 := pa.function
    let at1 :=
      if at0 = some "press".data then some "keydown".data
      else if at0 = some "release".data then some "keyup".data
      else at0
    match normalizeInputs at1 smartH smartW pa.args [] with
    | .error e => .error e
    | .ok inputs =>
      match buildActions reflection thought text smartH smartW rest with
      | .error e => .error e
      | .ok others => .ok (⟨reflection, thought, at1, inputs, text⟩ :: others)

/-- Source `parse_action_to_structure_output` at its default configuration
(`model_type="qwen25vl"`, factor 28, pixel band `[100*28*28, 16384*28*28]`):
strip and preprocess the raw model text, compute the smart-resize
dimensions, extract reflection/thought, split the `Action: ` suffix into
clauses, and parse plus normalize each clause. -/
def parse_action_to_structure_output (text0 : Chars)
    (origin_resized_height origin_resized_width : ℕ) : Except PErr (List StructAction) :=
  let t1 := stripL text0
  let t2 := if containsL "<point>".data t1 then convert_point_to_coordinates t1 else t1
  let t3 :=
    if containsL "start_point=".data t2 then replaceL t2 "start_point=".data "start_box=".data
    else t2
  let t4 :=
    if containsL "end_point=".data t3 then replaceL t3 "end_point=".data "end_box=".data
    else t3
  let text :=
    if containsL "point=".data t4 then replaceL t4 "point=".data "start_box=".data
    else t4
  match smart_resize origin_resized_height origin_resized_width 28 78400 12845056 with
  | .error e => .error (.smartErr e)
  | .ok (smartH, smartW) =>
    let rt := extractThought text
    if ¬containsL "Action:".data text then .error .assertActionMissing
    else
      let action_str := List.getLastD (splitOnL "Action: ".data text) []
      match prepareClauses (splitOnL (')' :: '\n' :: '\n' :: []) action_str) with
      | .error e => .error e
      | .ok clauses =>
        match parseClauses clauses with
        | .error e => .error e
        | .ok parsed => buildActions rt.1 rt.2 text smartH smartW parsed

/-- The concrete model text of the testable property in the specification:
`"Thought: T\nAction: click(start_box='(100,200)')"`. -/
def sampleClickText : Chars :=
  "Thought: T".data ++ ['\n'] ++ "Action: click(start_box=".data ++ [squote] ++
    "(100,200)".data ++ [squote, ')']

/-! ## Command synthesis (source `parsing_response_to_pyautogui_code`, lines 393-633) -/

/-- A primitive automation command (one fragment appended to the
`pyautogui_code` string by the source). -/
inductive PyCmd
  /-- The leading `import pyautogui\nimport time\n`. -/
  | header
  /-- The observation/thought docstring emitted for the first response. -/
  | comment (observation : Chars) (thought : Option Chars)
  /-- `time.sleep(1)` between batched responses. -/
  | sleepOne
  /-- `time.sleep(0.5)` after a type action. -/
  | sleepHalf
  /-- `import pyperclip`. -/
  | importPyperclip
  /-- `pyperclip.copy(...)`. -/
  | copyCmd (s : Chars)
  /-- `pyautogui.hotkey(...)` with the converted key list. -/
  | hotkeyCmd (keys : List Chars)
  /-- `pyautogui.press(...)`. -/
  | pressCmd (k : Chars)
  /-- `pyautogui.keyDown(repr(...))`; the argument may be a non-string
  (`repr` renders it without raising). -/
  | keyDownCmd (k : NormVal)
  /-- `pyautogui.keyUp(repr(...))`. -/
  | keyUpCmd (k : NormVal)
  /-- `pyautogui.write(...)`. -/
  | writeCmd (s : Chars)
  /-- `pyautogui.moveTo(x, y)`. -/
  | moveToCmd (x y : PyFloat)
  /-- `pyautogui.dragTo(x, y, duration=1.0)`. -/
  | dragToCmd (x y : PyFloat)
  /-- `pyautogui.scroll(amount)` with an optional anchor. -/
  | scrollCmd (amount : ℤ) (pos : Option (PyFloat × PyFloat))
  /-- `pyautogui.click(x, y, button=...)`. -/
  | clickCmd (x y : PyFloat) (button : Chars)
  /-- `pyautogui.doubleClick(x, y, button='left')`. -/
  | doubleClickCmd (x y : PyFloat)
  /-- The terminal sentinel `DONE` that replaces the whole output. -/
  | doneS
  /-- The diagnostic comment for an unrecognized action type. -/
  | unrecognizedCmd (a_type : Option Chars)
deriving DecidableEq

/-- Python exceptions the synthesizer can raise. -/
inductive SynthErr
  /-- `TypeError`: `eval()` arg 1 must be a string, bytes or code object. -/
  | evalTypeErr
  /-- `TypeError` from applying string operations to a non-string. -/
  | strTypeErr
  /-- `AttributeError` from `.split()` / `.lower()` on a non-string. -/
  | attrErr
  /-- `ValueError`: start_box is not list of int. -/
  | notListErr
  /-- `ValueError`: start_box length is not 2 or 4. -/
  | lenErr
  /-- `ValueError` from unpacking a non-4-tuple. -/
  | unpackErr
  /-- Failure inside `eval` itself. -/
  | evalErr
deriving DecidableEq

/-- Result of `eval` on a box expression string. -/
inductive EvalVal
  | listV (l : List PyFloat)
  | tupleV (l : List PyFloat)
  | noneV
deriving DecidableEq

/-- Comma-separated numeric elements of a bracketed literal. -/
def parseElems (inner : Chars) : Option (List PyFloat) :=
  if (stripL inner).isEmpty then some []
  else
    let toks := splitOnL [','] inner
    toks.foldr (fun t acc =>
      match parseRat t, acc with
      | some v, some l => some (v :: l)
      | _, _ => Option.none) (some [])

/-- Model of Python `eval` restricted to the literals the synthesizer
feeds it: a list literal, a tuple literal, or `None`. -/
def pyEvalStr (s : Chars) : Option EvalVal :=
  let t := stripL s
  if t = "None".data then some .noneV
  else
    match t with
    | '[' :: rest =>
      if endsWithL [']'] rest then (parseElems (rest.dropLast)).map .listV else Option.none
    | '(' :: rest =>
      if endsWithL [')'] rest then (parseElems (rest.dropLast)).map .tupleV else Option.none
    | _ => Option.none

/-- `eval` applied to a dictionary value: a stored Python list raises the
`TypeError` (`eval` requires a string), a stored string is evaluated. -/
def evalBoxOf : NormVal → Except SynthErr EvalVal
  | .vBox _ => .error .evalTypeErr
  | .vStr s =>
    match pyEvalStr s with
    | some v => .ok v
    | Option.none => .error .evalErr

/-- Unpacking `x1, y1, x2, y2 = ...`. -/
def unpack4 : EvalVal → Except SynthErr (PyFloat × PyFloat × PyFloat × PyFloat)
  | .listV [a, b, c, d] => .ok (a, b, c, d)
  | .tupleV [a, b, c, d] => .ok (a, b, c, d)
  | _ => .error .unpackErr

/-- `round(float((a + b) / 2) * dim, 3)`. -/
def midpointRound (a b : PyFloat) (dim : ℕ) : PyFloat :=
  (((a.add b).divNat 2).mulNat dim).round3

/-- Python truthiness filter on an optional dictionary value. -/
def truthyVal : Option NormVal → Option NormVal
  | some (.vStr []) => Option.none
  | some (.vBox []) => Option.none
  | some v => some v
  | Option.none => Option.none

/-- Whole-string arrow-key renaming of the hotkey branch. -/
def hotkeyArrows (s : Chars) : Chars :=
  if s = "arrowleft".data then "left".data
  else if s = "arrowright".data then "right".data
  else if s = "arrowup".data then "up".data
  else if s = "arrowdown".data then "down".data
  else s

/-- Whole-string arrow and space renaming of the key-press branches. -/
def keyArrowsSpace (s : Chars) : Chars :=
  if s = "arrowleft".data then "left".data
  else if s = "arrowright".data then "right".data
  else if s = "arrowup".data then "up".data
  else if s = "arrowdown".data then "down".data
  else if s = "space".data then [' ']
  else s

/-- Fuel-driven worker for `splitWsL`. -/
def splitWsAux : ℕ → Chars → List Chars
  | 0, _ => []
  | fuel + 1, s =>
    match s.dropWhile isSpacePy with
    | [] => []
    | s1@(_ :: _) =>
      s1.takeWhile (fun c => !isSpacePy c) :: splitWsAux fuel (s1.dropWhile (fun c => !isSpacePy c))

/-- Model of Python `str.split()` with no argument: split on whitespace
runs, dropping empty fields. -/
def splitWsL (s : Chars) : List Chars := splitWsAux (s.length + 1) s

/-- Model of Python `str.lower()` (ASCII). -/
def toLowerL (s : Chars) : Chars := s.map Char.toLower

/-- One iteration of the response loop of
`parsing_response_to_pyautogui_code`: append the first-response comment or
the inter-response sleep, then run the `action_type` dispatch appending
primitive commands to the accumulated output (or replacing it wholesale
with the `DONE` sentinel for `finished`). -/
def synthStep (image_height image_width : ℕ) (input_swap : Bool) (response_id : ℕ)
    (acc : List PyCmd) (r : StructAction) : Except SynthErr (List PyCmd) :=
  let acc1 := if response_id = 0 then acc ++ [.comment [] r.thought] else acc ++ [.sleepOne]
  let aty := r.action_type
  let inputs := r.action_inputs
  if aty = some "hotkey".data then
    let hk :=
      if (dictGet "key".data inputs).isSome then (dictGet "key".data inputs).getD (.vStr [])
      else (dictGet "hotkey".data inputs).getD (.vStr [])
    match hk with
    | .vStr s =>
      let s1 := hotkeyArrows s
      if s1.isEmpty then .ok acc1
      else
        .ok (acc1 ++
          [.hotkeyCmd ((splitWsL s1).map (fun k => if k = "space".data then [' '] else k))])
    | .vBox l => if l.isEmpty then .ok acc1 else .error .attrErr
  else if aty = some "press".data ∨ aty = some "keydown".data then
    let k :=
      if (dictGet "key".data inputs).isSome then (dictGet "key".data inputs).getD (.vStr [])
      else (dictGet "press".data inputs).getD (.vStr [])
    match k with
    | .vStr s =>
      let s1 := keyArrowsSpace s
      if s1.isEmpty then .ok acc1 else .ok (acc1 ++ [.keyDownCmd (.vStr s1)])
    | .vBox l => if l.isEmpty then .ok acc1 else .ok (acc1 ++ [.keyDownCmd (.vBox l)])
  else if aty = some "release".data ∨ aty = some "keyup".data then
    let k :=
      if (dictGet "key".data inputs).isSome then (dictGet "key".data inputs).getD (.vStr [])
      else (dictGet "press".data inputs).getD (.vStr [])
    match k with
    | .vStr s =>
      let s1 := keyArrowsSpace s
      if s1.isEmpty then .ok acc1 else .ok (acc1 ++ [.keyUpCmd (.vStr s1)])
    | .vBox l => if l.isEmpty then .ok acc1 else .ok (acc1 ++ [.keyUpCmd (.vBox l)])
  else if aty = some "type".data then
    match (dictGet "content".data inputs).getD (.vStr []) with
    | .vBox _ => .error .strTypeErr
    | .vStr c0 =>
      let c := escape_single_quotes c0
      let endsNl := endsWithL ['\n'] c || endsWithL ['\\', 'n'] c
      let stripped := if endsNl then rstripSetL ['\n'] (rstripSetL ['\\', 'n'] c) else c
      if c.isEmpty then .ok acc1
      else if input_swap then
        .ok (acc1 ++ [.importPyperclip, .copyCmd stripped, .hotkeyCmd ["ctrl".data, "v".data],
          .sleepHalf] ++ (if endsNl then [.pressCmd "enter".data] else []))
      else
        .ok (acc1 ++ [.writeCmd stripped, .sleepHalf] ++
          (if endsNl then [.pressCmd "enter".data] else []))
  else if aty = some "drag".data ∨ aty = some "select".data then
    match truthyVal (dictGet "start_box".data inputs), truthyVal (dictGet "end_box".data inputs) with
    | some sb, some eb =>
      match evalBoxOf sb with
      | .error e => .error e
      | .ok v1 =>
        match unpack4 v1 with
        | .error e => .error e
        | .ok (x1, y1, x2, y2) =>
          match evalBoxOf eb with
          | .error e => .error e
          | .ok v2 =>
            match unpack4 v2 with
            | .error e => .error e
            | .ok (x3, y3, x4, y4) =>
              .ok (acc1 ++
                [.moveToCmd (midpointRound x1 x2 image_width) (midpointRound y1 y2 image_height),
                 .dragToCmd (midpointRound x3 x4 image_width) (midpointRound y3 y4 image_height)])
    | _, _ => .ok acc1
  else if aty = some "scroll".data then
    let xyE : Except SynthErr (Option (PyFloat × PyFloat)) :=
      match truthyVal (dictGet "start_box".data inputs) with
      | some sb =>
        match evalBoxOf sb with
        | .error e => .error e
        | .ok v =>
          match unpack4 v with
          | .error e => .error e
          | .ok (x1, y1, x2, y2) =>
            .ok (some (midpointRound x1 x2 image_width, midpointRound y1 y2 image_height))
      | Option.none => .ok Option.none
    match xyE with
    | .error e => .error e
    | .ok xy =>
      match (dictGet "direction".data inputs).getD (.vStr []) with
      | .vBox _ => .error .attrErr
      | .vStr d =>
        let dl := toLowerL d
        let notX := match xy with
          | Option.none => true
          | some (x, _) => x.isZero
        if notX then
          if containsL "up".data dl then .ok (acc1 ++ [.scrollCmd 5 Option.none])
          else if containsL "down".data dl then .ok (acc1 ++ [.scrollCmd (-5) Option.none])
          else .ok acc1
        else
          if containsL "up".data dl then .ok (acc1 ++ [.scrollCmd 5 xy])
          else if containsL "down".data dl then .ok (acc1 ++ [.scrollCmd (-5) xy])
          else .ok acc1
  else if aty = some "click".data ∨ aty = some "left_single".data ∨
      aty = some "left_double".data ∨ aty = some "right_single".data ∨
      aty = some "hover".data then
    if dictGet "start_box".data inputs = some (.vStr []) then
      -- `str("")` is falsy, so an empty string box emits nothing
      .ok acc1
    else
    let evaled : Except SynthErr (List PyFloat) :=
      match dictGet "start_box".data inputs with
      | some (.vBox l) => .ok l
      | some (.vStr s) =>
        match pyEvalStr s with
        | some (.listV l) => .ok l
        | some _ => .error .notListErr
        | Option.none => .error .evalErr
      | Option.none => .error .notListErr
    match evaled with
    | .error e => .error e
    | .ok l =>
      let coords : Except SynthErr (PyFloat × PyFloat × PyFloat × PyFloat) :=
        match l with
        | [a, b, c, d] => .ok (a, b, c, d)
        | [a, b] => .ok (a, b, a, b)
        | _ => .error .lenErr
      match coords with
      | .error e => .error e
      | .ok (x1, y1, x2, y2) =>
        let x := midpointRound x1 x2 image_width
        let y := midpointRound y1 y2 image_height
        if aty = some "left_single".data ∨ aty = some "click".data then
          .ok (acc1 ++ [.clickCmd x y "left".data])
        else if aty = some "left_double".data then .ok (acc1 ++ [.doubleClickCmd x y])
        else if aty = some "right_single".data then .ok (acc1 ++ [.clickCmd x y "right".data])
        else .ok (acc1 ++ [.moveToCmd x y])
  else if aty = some "finished".data then .ok [.doneS]
  else .ok (acc1 ++ [.unrecognizedCmd aty])

/-- The response loop: thread the accumulated command list through
`synthStep` with increasing response index. -/
def synthAux (image_height image_width : ℕ) (input_swap : Bool) :
    ℕ → List PyCmd → List StructAction → Except SynthErr (List PyCmd)
  | _, acc, [] => .ok acc
  | response_id, acc, r :: rest =>
    match synthStep image_height image_width input_swap response_id acc r with
    | .error e => .error e
    | .ok acc2 => synthAux image_height image_width input_swap (response_id + 1) acc2 rest

/-- Source `parsing_response_to_pyautogui_code`: map a batch of
structured responses to the command list, starting from the import
header. -/
def parsing_response_to_pyautogui_code (responses : List StructAction)
    (image_height image_width : ℕ) (input_swap : Bool) : Except SynthErr (List PyCmd) :=
  synthAux image_height image_width input_swap 0 [.header] responses

/-! ## Execution loop controller (source `standalone_uitars`, lines 670-891)

The loop is modelled as a small-step function over an abstract
environment: the grounding-model invoker, the websocket channel
(dispatch, screenshot) and the parse-plus-synthesis classification are
oracles indexed by call counts, so the theorems quantify over every
possible run.  `τ` is the type of model response texts and `α` the type
of parsed actions. -/

/-- A model response object from which a text may or may not be
extractable (`response.message.get("content", "")[0].get("text", "")`,
whose failure triggers the `break`). -/
inductive Resp (τ : Type)
  | text (t : τ)
  | noText
deriving DecidableEq

/-- Outcome of one grounding-model invocation (`invoke_async` or the
synchronous recovery call): a websocket disconnect, any other exception,
or a response object. -/
inductive MRes (τ : Type)
  | disconnect
  | exn
  | ok (r : Resp τ)
deriving DecidableEq

/-- Outcome of parsing plus synthesizing one response text:
an exception (`ParseError` family), the `DONE` sentinel with its parsed
action, or a dispatchable action. -/
inductive PRes (α : Type)
  | perr
  | done (a : α)
  | act (a : α)
deriving DecidableEq

/-- Outcome of one `send_json`/`receive_json` dispatch round. -/
inductive DRes
  | disconnect
  | result (success : Bool)
deriving DecidableEq

/-- Outcome of one screenshot request (`screenshot_bytes`):
`WebSocketDisconnect` (re-raised), the `RuntimeError` of
`request_remote_screenshot` (re-raised by the `except RuntimeError`
clause), any other exception such as the timeout (caught by the generic
handler), or success. -/
inductive SRes
  | disconnect
  | rtErr
  | exn
  | ok
deriving DecidableEq

/-- One `register_gui_trace` record (an ExecutionStep). -/
structure TraceStep (α : Type) where
  action : α
  success : Bool
deriving DecidableEq

/-- Fatal errors propagating out of `standalone_uitars`. -/
inductive Fatal (α : Type)
  /-- `WebSocketDisconnect`, re-raised at every handler. -/
  | disconnect
  /-- The `RuntimeError` raised on `success=false`, carrying the action. -/
  | dispatchFailed (a : α)
  /-- The `RuntimeError` of `request_remote_screenshot`, re-raised. -/
  | screenshotRuntime
  /-- An exception of the initial screenshot, taken outside the `try`. -/
  | initFailure
deriving DecidableEq

/-- The abstract environment of one run. -/
structure LoopEnv (τ α : Type) where
  /-- Parse plus synthesis of a response text (deterministic). -/
  classify : τ → PRes α
  /-- The n-th `invoke_async` call (the initial one is index 0). -/
  invoke : ℕ → MRes τ
  /-- The n-th synchronous `agent(instruction)` call, given the
  instruction text; indexed by the same counter as `invoke`. -/
  agentCall : Chars → ℕ → MRes τ
  /-- The n-th action dispatch round. -/
  dispatch : ℕ → DRes
  /-- The n-th in-loop screenshot request. -/
  shot : ℕ → SRes

/-- The loop state: iteration counter, recorded trace, accumulated
assistant turns, current response object, and call counters. -/
structure LoopSt (τ α : Type) where
  iteration : ℕ
  trace : List (TraceStep α)
  msgs : List τ
  resp : Resp τ
  nInvoke : ℕ
  nDispatch : ℕ
  nShot : ℕ
deriving DecidableEq

/-- Terminal outcome of the loop. -/
inductive LoopOutcome (τ α : Type)
  /-- Normal return of the accumulated conversation history. -/
  | history (msgs : List τ)
  /-- Normal return of `[{"text": "Exceeded maximum allowed actions."}]`. -/
  | budgetExceeded
  /-- Normal return of `[{"text": str(e)}]` from the outer handler. -/
  | errorText
  /-- A raised fatal error. -/
  | raised (e : Fatal α)
deriving DecidableEq

/-- Result of one pass through the `while True:` body. -/
inductive LoopStep (τ α : Type)
  | cont (st : LoopSt τ α)
  | stop (o : LoopOutcome τ α) (st : LoopSt τ α)
deriving DecidableEq

/-- The fixed recovery instruction re-issued after a recoverable
failure. -/
def recoveryInstruction : Chars := "The action failed. Try again".data

/-- Append the text of a successful response to the assistant history. -/
def pushMsg (msgs : List τ) : Resp τ → List τ
  | .text t => msgs ++ [t]
  | .noText => msgs

/-- The generic `except Exception:` handler:
`response = agent("The action failed. Try again"); continue`.  A
disconnect inside the recovery call is re-raised; any other exception
escapes the loop and the outer handler returns its text. -/
def retryStep (env : LoopEnv τ α) (st : LoopSt τ α) : LoopStep τ α :=
  match env.agentCall recoveryInstruction st.nInvoke with
  | .ok r =>
    .cont { st with nInvoke := st.nInvoke + 1, resp := r, msgs := pushMsg st.msgs r }
  | .disconnect => .stop (.raised .disconnect) { st with nInvoke := st.nInvoke + 1 }
  | .exn => .stop .errorText { st with nInvoke := st.nInvoke + 1 }

/-- One pass through the loop body (lines 777-872): increment the
iteration counter, budget check, response-text extraction, parse plus
synthesis, `DONE` check, dispatch, result handling, trace recording,
settle delay, fresh screenshot, next invocation — with the
`WebSocketDisconnect` / `RuntimeError` / generic exception handler
ordering of the source. -/
def loopPass (env : LoopEnv τ α) (maxA : ℕ) (st : LoopSt τ α) : LoopStep τ α :=
  let st1 := { st with iteration := st.iteration + 1 }
  if maxA < st1.iteration then .stop .budgetExceeded st1
  else
    match st1.resp with
    | .noText => .stop (.history st1.msgs) st1
    | .text t =>
      match env.classify t with
      | .perr => retryStep env st1
      | .done a => .stop (.history st1.msgs) { st1 with trace := st1.trace ++ [⟨a, true⟩] }
      | .act a =>
        match env.dispatch st1.nDispatch with
        | .disconnect => .stop (.raised .disconnect) { st1 with nDispatch := st1.nDispatch + 1 }
        | .result false =>
          .stop (.raised (.dispatchFailed a))
            { st1 with nDispatch := st1.nDispatch + 1, trace := st1.trace ++ [⟨a, false⟩] }
        | .result true =>
          let st2 : LoopSt τ α :=
            { st1 with nDispatch := st1.nDispatch + 1, trace := st1.trace ++ [⟨a, true⟩] }
          match env.shot st2.nShot with
          | .disconnect => .stop (.raised .disconnect) { st2 with nShot := st2.nShot + 1 }
          | .rtErr => .stop (.raised .screenshotRuntime) { st2 with nShot := st2.nShot + 1 }
          | .exn => retryStep env { st2 with nShot := st2.nShot + 1 }
          | .ok =>
            let st3 := { st2 with nShot := st2.nShot + 1 }
            match env.invoke st3.nInvoke with
            | .disconnect => .stop (.raised .disconnect) { st3 with nInvoke := st3.nInvoke + 1 }
            | .exn => retryStep env { st3 with nInvoke := st3.nInvoke + 1 }
            | .ok r =>
              .cont { st3 with nInvoke := st3.nInvoke + 1, resp := r,
                               msgs := pushMsg st3.msgs r }

/-- Iterate `loopPass` with fuel (one unit per pass); `none` means the
fuel was exhausted before the loop settled. -/
def runLoop (env : LoopEnv τ α) (maxA : ℕ) :
    ℕ → LoopSt τ α → Option (LoopOutcome τ α × LoopSt τ α)
  | 0, _ => Option.none
  | fuel + 1, st =>
    match loopPass env maxA st with
    | .stop o st2 => some (o, st2)
    | .cont st2 => runLoop env maxA fuel st2

/-- The empty starting state. -/
def initSt (τ α : Type) : LoopSt τ α := ⟨0, [], [], .noText, 0, 0, 0⟩

/-- Source `standalone_uitars` glue: the initial screenshot (outside the
`try`, so every failure propagates), the initial invocation (inside the
`try`: a disconnect is re-raised, any other exception becomes the
error-text return), then the loop. -/
def runStandalone (env : LoopEnv τ α) (initShot : SRes) (maxA fuel : ℕ) :
    Option (LoopOutcome τ α × LoopSt τ α) :=
  match initShot with
  | .disconnect => some (.raised .disconnect, initSt τ α)
  | .rtErr => some (.raised .initFailure, initSt τ α)
  | .exn => some (.raised .initFailure, initSt τ α)
  | .ok =>
    match env.invoke 0 with
    | .disconnect => some (.raised .disconnect, initSt τ α)
    | .exn => some (.errorText, initSt τ α)
    | .ok r =>
      runLoop env maxA fuel { initSt τ α with nInvoke := 1, resp := r, msgs := pushMsg [] r }

/-- Helper: concrete environment in which the grounding model always
answers but its output never parses; used to exhibit the retry path. -/
def envRetry : LoopEnv ℕ ℕ where
  classify := fun _ => .perr
  invoke := fun _ => .ok (.text 0)
  agentCall := fun _ _ => .ok (.text 7)
  dispatch := fun _ => .result true
  shot := fun _ => .ok

/-- Helper: concrete environment whose dispatch always reports failure. -/
def envDispatchFail : LoopEnv ℕ ℕ where
  classify := fun _ => .act 9
  invoke := fun _ => .ok (.text 0)
  agentCall := fun _ _ => .ok (.text 7)
  dispatch := fun _ => .result false
  shot := fun _ => .ok

/-- Helper: concrete environment whose model always answers with a
dispatchable action and never emits `finished`. -/
def envNeverDone : LoopEnv ℕ ℕ where
  classify := fun _ => .act 4
  invoke := fun _ => .ok (.text 1)
  agentCall := fun _ _ => .ok (.text 2)
  dispatch := fun _ => .result true
  shot := fun _ => .ok

/-- Helper: concrete environment whose dispatch round signals a
disconnect. -/
def envDisc : LoopEnv ℕ ℕ where
  classify := fun _ => .act 4
  invoke := fun _ => .ok (.text 1)
  agentCall := fun _ _ => .ok (.text 2)
  dispatch := fun _ => .disconnect
  shot := fun _ => .ok

/-- The drag action exactly as the parser produces it: list-valued
(not stringified) coordinate boxes. -/
def dragListAction : StructAction :=
  ⟨Option.none, some "t".data, some "drag".data,
    [("start_box".data, .vBox [⟨1, 10⟩, ⟨2, 10⟩, ⟨3, 10⟩, ⟨4, 10⟩]),
     ("end_box".data, .vBox [⟨5, 10⟩, ⟨6, 10⟩, ⟨7, 10⟩, ⟨8, 10⟩])], []⟩

/-- The same drag action with the stringified boxes the module docstring
describes (and the only form the drag branch can consume). -/
def dragStrAction : StructAction :=
  ⟨Option.none, some "t".data, some "drag".data,
    [("start_box".data, .vStr "[0.1, 0.2, 0.3, 0.4]".data),
     ("end_box".data, .vStr "[0.5, 0.6, 0.7, 0.8]".data)], []⟩

/-! ## Theorems -/

/-- Helper: rounding a natural up to a multiple of 28 does not fall below it. -/
theorem le_ceil_mul_28 (s : ℕ) : s ≤ (s + 27) / 28 * 28 := by
  have h1 := Nat.div_add_mod (s + 27) 28
  have h2 : (s + 27) % 28 < 28 := Nat.mod_lt _ (by norm_num)
  omega

/-- Helper: rounding a natural down to a multiple of 28 loses less than 28. -/
theorem div_mul_28_ge (a : ℕ) : a ≤ a / 28 * 28 + 27 := by
  have h1 := Nat.div_add_mod a 28
  have h2 : a % 28 < 28 := Nat.mod_lt _ (by norm_num)
  omega

/-- Helper: `sqrtCeilDiv a b` squared times `b` dominates `a` (it models
the ceiling of the square root of `a / b`). -/
theorem sqrtCeilDiv_sq_ge (a b : ℕ) (hb : 0 < b) : a ≤ sqrtCeilDiv a b * sqrtCeilDiv a b * b := by
  simp only [sqrtCeilDiv]
  by_cases h : Nat.sqrt (a / b) * Nat.sqrt (a / b) * b = a
  · rw [if_pos h]
    omega
  · rw [if_neg h]
    have h1 : a / b < (Nat.sqrt (a / b) + 1) * (Nat.sqrt (a / b) + 1) :=
      Nat.lt_succ_sqrt (a / b)
    have h2 : a < (Nat.sqrt (a / b) + 1) * (Nat.sqrt (a / b) + 1) * b :=
      (Nat.div_lt_iff_lt_mul hb).mp h1
    omega

/-- Helper: `sqrtCeilDiv` exceeds the floor square root by at most one. -/
theorem sqrtCeilDiv_le_sqrt_succ (a b : ℕ) : sqrtCeilDiv a b ≤ Nat.sqrt (a / b) + 1 := by
  simp only [sqrtCeilDiv]
  by_cases h : Nat.sqrt (a / b) * Nat.sqrt (a / b) * b = a
  · rw [if_pos h]
    omega
  · rw [if_neg h]

/-- Helper: comparison of naturals through their squares. -/
theorem le_of_sq_le_sq (x y : ℕ) (h : x * x ≤ y * y) : x ≤ y := by
  by_contra hc
  push_neg at hc
  have : y * y < x * x := Nat.mul_lt_mul'' hc hc
  omega

/-- Helper: strict comparison of naturals through their squares. -/
theorem lt_of_sq_lt_sq (x y : ℕ) (h : x * x < y * y) : x < y := by
  by_contra hc
  push_neg at hc
  have : y * y ≤ x * x := Nat.mul_le_mul hc hc
  omega

/-- Helper: bound `h * c / w ≤ 200 * c` under the aspect-ratio hypothesis
`h ≤ 200 * w`. -/
theorem ratio_div_upper (h w c : ℕ) (hw : 0 < w) (hr : h ≤ 200 * w) :
    h * c / w ≤ 200 * c := by
  have h1 : h * c ≤ 200 * c * w := by nlinarith
  calc h * c / w ≤ 200 * c * w / w := Nat.div_le_div_right h1
    _ = 200 * c := Nat.mul_div_cancel _ hw

/-- Helper: bound `c / 200 ≤ h * c / w` under the aspect-ratio hypothesis
`w ≤ 200 * h`. -/
theorem ratio_div_lower (h w c : ℕ) (hh : 0 < h) (hw : 0 < w) (hr : w ≤ 200 * h) :
    c / 200 ≤ h * c / w := by
  have h1 : h * c / (200 * h) ≤ h * c / w := Nat.div_le_div_left hr hw
  have h2 : h * c / (200 * h) = c / 200 := by
    rw [mul_comm 200 h, Nat.mul_div_mul_left _ _ hh]
  omega

/-- Helper: in the oversize branch of `smart_resize`, the floored result
pair stays inside the `[78400, 12845056]` pixel band whenever the aspect
ratio is within 200. -/
theorem smart_resize_big_branch (h w : ℕ) (hh : 0 < h) (hw : 0 < w)
    (hr1 : h ≤ 200 * w) (hr2 : w ≤ 200 * h) :
    78400 ≤ (Nat.sqrt (h * 12845056 / w) / 28 * 28) * (Nat.sqrt (w * 12845056 / h) / 28 * 28) ∧
      (Nat.sqrt (h * 12845056 / w) / 28 * 28) * (Nat.sqrt (w * 12845056 / h) / 28 * 28) ≤
        12845056 := by
  set a := Nat.sqrt (h * 12845056 / w) with ha_def
  set b := Nat.sqrt (w * 12845056 / h) with hb_def
  set H := a / 28 * 28 with hH_def
  set W := b / 28 * 28 with hW_def
  have haU : a * a ≤ h * 12845056 / w := Nat.sqrt_le _
  have hbU : b * b ≤ w * 12845056 / h := Nat.sqrt_le _
  have haU' : a * a * w ≤ h * 12845056 :=
    le_trans (Nat.mul_le_mul_right w haU) (Nat.div_mul_le_self _ w)
  have hbU' : b * b * h ≤ w * 12845056 :=
    le_trans (Nat.mul_le_mul_right h hbU) (Nat.div_mul_le_self _ h)
  have hHa : H ≤ a := Nat.div_mul_le_self a 28
  have hWb : W ≤ b := Nat.div_mul_le_self b 28
  constructor
  · -- lower bound
    have hal : 253 ≤ a := by
      apply Nat.le_sqrt.mpr
      have := ratio_div_lower h w 12845056 hh hw hr2
      norm_num at this
      omega
    have hbl : 253 ≤ b := by
      apply Nat.le_sqrt.mpr
      have := ratio_div_lower w h 12845056 hw hh hr1
      norm_num at this
      omega
    have hau : a ≤ 50685 := by
      have h1 : h * 12845056 / w ≤ 200 * 12845056 := ratio_div_upper h w 12845056 hw hr1
      have h2 : a < 50686 := Nat.sqrt_lt.mpr (by omega)
      omega
    have hbu : b ≤ 50685 := by
      have h1 : w * 12845056 / h ≤ 200 * 12845056 := ratio_div_upper w h 12845056 hh hr2
      have h2 : b < 50686 := Nat.sqrt_lt.mpr (by omega)
      omega
    have k1 : h * 12845056 < (a + 1) * (a + 1) * w :=
      (Nat.div_lt_iff_lt_mul hw).mp (Nat.lt_succ_sqrt _)
    have k2 : w * 12845056 < (b + 1) * (b + 1) * h :=
      (Nat.div_lt_iff_lt_mul hh).mp (Nat.lt_succ_sqrt _)
    have k3 : h * 12845056 * (w * 12845056) < (a + 1) * (a + 1) * w * ((b + 1) * (b + 1) * h) :=
      mul_lt_mul'' k1 k2 (Nat.zero_le _) (Nat.zero_le _)
    have k4 : 12845056 * 12845056 * (h * w) <
        ((a + 1) * (b + 1)) * ((a + 1) * (b + 1)) * (h * w) := by
      calc 12845056 * 12845056 * (h * w) = h * 12845056 * (w * 12845056) := by ring
        _ < (a + 1) * (a + 1) * w * ((b + 1) * (b + 1) * h) := k3
        _ = ((a + 1) * (b + 1)) * ((a + 1) * (b + 1)) * (h * w) := by ring
    have k5 : 12845056 * 12845056 < ((a + 1) * (b + 1)) * ((a + 1) * (b + 1)) :=
      lt_of_mul_lt_mul_right k4 (Nat.zero_le _)
    have k6 : 12845056 < (a + 1) * (b + 1) := lt_of_sq_lt_sq _ _ k5
    have k7 : (a + 1) * (b + 1) = a * b + a + b + 1 := by ring
    have k8 : 12845056 ≤ a * b + a + b := by omega
    have q1 : a ≤ H + 27 := div_mul_28_ge a
    have q2 : b ≤ W + 27 := div_mul_28_ge b
    have q3 : a * b ≤ (H + 27) * (W + 27) := Nat.mul_le_mul q1 q2
    have q4 : (H + 27) * (W + 27) = H * W + 27 * H + 27 * W + 729 := by ring
    have q5 : H ≤ 50685 := le_trans hHa hau
    have q6 : W ≤ 50685 := le_trans hWb hbu
    linarith
  · -- upper bound
    have k3 : a * a * w * (b * b * h) ≤ h * 12845056 * (w * 12845056) :=
      Nat.mul_le_mul haU' hbU'
    have k4 : (a * b) * (a * b) * (w * h) ≤ 12845056 * 12845056 * (w * h) := by
      calc (a * b) * (a * b) * (w * h) = a * a * w * (b * b * h) := by ring
        _ ≤ h * 12845056 * (w * 12845056) := k3
        _ = 12845056 * 12845056 * (w * h) := by ring
    have k5 : (a * b) * (a * b) ≤ 12845056 * 12845056 :=
      Nat.le_of_mul_le_mul_right k4 (by positivity)
    have k6 : a * b ≤ 12845056 := le_of_sq_le_sq _ _ k5
    calc H * W ≤ a * b := Nat.mul_le_mul hHa hWb
      _ ≤ 12845056 := k6

/-- Helper: in the undersize branch of `smart_resize`, the ceiled result
pair stays inside the `[78400, 12845056]` pixel band whenever the aspect
ratio is within 200. -/
theorem smart_resize_small_branch (h w : ℕ) (hh : 0 < h) (hw : 0 < w)
    (hr1 : h ≤ 200 * w) (hr2 : w ≤ 200 * h) :
    78400 ≤ ((sqrtCeilDiv (h * 78400) w + 27) / 28 * 28) *
        ((sqrtCeilDiv (w * 78400) h + 27) / 28 * 28) ∧
      ((sqrtCeilDiv (h * 78400) w + 27) / 28 * 28) *
        ((sqrtCeilDiv (w * 78400) h + 27) / 28 * 28) ≤ 12845056 := by
  set sh := sqrtCeilDiv (h * 78400) w with hsh_def
  set sw := sqrtCeilDiv (w * 78400) h with hsw_def
  set H := (sh + 27) / 28 * 28 with hH_def
  set W := (sw + 27) / 28 * 28 with hW_def
  have f1 : h * 78400 ≤ sh * sh * w := sqrtCeilDiv_sq_ge _ _ hw
  have f2 : w * 78400 ≤ sw * sw * h := sqrtCeilDiv_sq_ge _ _ hh
  constructor
  · -- lower bound
    have k1 : h * 78400 * (w * 78400) ≤ sh * sh * w * (sw * sw * h) := Nat.mul_le_mul f1 f2
    have k2 : 78400 * 78400 * (h * w) ≤ (sh * sw) * (sh * sw) * (h * w) := by
      calc 78400 * 78400 * (h * w) = h * 78400 * (w * 78400) := by ring
        _ ≤ sh * sh * w * (sw * sw * h) := k1
        _ = (sh * sw) * (sh * sw) * (h * w) := by ring
    have k3 : 78400 * 78400 ≤ (sh * sw) * (sh * sw) :=
      Nat.le_of_mul_le_mul_right k2 (by positivity)
    have k4 : 78400 ≤ sh * sw := le_of_sq_le_sq _ _ k3
    calc (78400 : ℕ) ≤ sh * sw := k4
      _ ≤ H * W := Nat.mul_le_mul (le_ceil_mul_28 sh) (le_ceil_mul_28 sw)
  · -- upper bound
    set nh := Nat.sqrt (h * 78400 / w) with hnh_def
    set nw := Nat.sqrt (w * 78400 / h) with hnw_def
    have g1 : nh * nh * w ≤ h * 78400 :=
      le_trans (Nat.mul_le_mul_right w (Nat.sqrt_le _)) (Nat.div_mul_le_self _ w)
    have g2 : nw * nw * h ≤ w * 78400 :=
      le_trans (Nat.mul_le_mul_right h (Nat.sqrt_le _)) (Nat.div_mul_le_self _ h)
    have g3 : (nh * nw) * (nh * nw) * (w * h) ≤ 78400 * 78400 * (w * h) := by
      calc (nh * nw) * (nh * nw) * (w * h) = nh * nh * w * (nw * nw * h) := by ring
        _ ≤ h * 78400 * (w * 78400) := Nat.mul_le_mul g1 g2
        _ = 78400 * 78400 * (w * h) := by ring
    have g4 : nh * nw ≤ 78400 :=
      le_of_sq_le_sq _ _ (Nat.le_of_mul_le_mul_right g3 (by positivity))
    have g5 : nh ≤ 3959 := by
      have h1 : h * 78400 / w ≤ 200 * 78400 := ratio_div_upper h w 78400 hw hr1
      have h2 : nh < 3960 := Nat.sqrt_lt.mpr (by omega)
      omega
    have g6 : nw ≤ 3959 := by
      have h1 : w * 78400 / h ≤ 200 * 78400 := ratio_div_upper w h 78400 hh hr2
      have h2 : nw < 3960 := Nat.sqrt_lt.mpr (by omega)
      omega
    have g7 : H ≤ nh + 28 := by
      have := Nat.div_mul_le_self (sh + 27) 28
      have := sqrtCeilDiv_le_sqrt_succ (h * 78400) w
      omega
    have g8 : W ≤ nw + 28 := by
      have := Nat.div_mul_le_self (sw + 27) 28
      have := sqrtCeilDiv_le_sqrt_succ (w * 78400) h
      omega
    have g9 : H * W ≤ (nh + 28) * (nw + 28) := Nat.mul_le_mul g7 g8
    have g10 : (nh + 28) * (nw + 28) = nh * nw + 28 * nh + 28 * nw + 784 := by ring
    linarith

/-- Helper: the result of `max factor (round_by_factor n factor)` is a
multiple of the factor. -/
theorem dvd_max_round (n : ℕ) : 28 ∣ max 28 (round_by_factor n 28) := by
  rcases max_choice 28 (round_by_factor n 28) with hc | hc <;> rw [hc]
  exact dvd_mul_left 28 (pyRoundNat n 28)

/-- C8: for every (height, width) with positive dimensions and aspect
ratio at most 200, `smart_resize` (at its default factor 28 and pixel
band `[100*28*28, 16384*28*28]`) returns dimensions that are both
divisible by 28 with a pixel product inside the band; for aspect ratio
exceeding 200 it raises the hard `ValueError`. -/
theorem C8_smart_resize_factor_and_band (h w : ℕ) (hh : 0 < h) (hw : 0 < w) :
    (max h w ≤ 200 * min h w →
      ∃ H W, smart_resize h w 28 78400 12845056 = .ok (H, W) ∧
        28 ∣ H ∧ 28 ∣ W ∧ 78400 ≤ H * W ∧ H * W ≤ 12845056) ∧
    (200 * min h w < max h w →
      smart_resize h w 28 78400 12845056 =
        .error "absolute aspect ratio must be smaller than 200".data) := by
  have hz : ¬(h = 0 ∨ w = 0) := by omega
  constructor
  · intro hr
    have hratio : ¬200 * min h w < max h w := by omega
    have hr1 : h ≤ 200 * w := by omega
    have hr2 : w ≤ 200 * h := by omega
    unfold smart_resize
    rw [if_neg hz, if_neg hratio]
    simp only []
    by_cases hbig : 12845056 < max 28 (round_by_factor h 28) * max 28 (round_by_factor w 28)
    · rw [if_pos hbig]
      refine ⟨_, _, rfl, dvd_mul_left 28 _, dvd_mul_left 28 _, ?_, ?_⟩
      · exact (smart_resize_big_branch h w hh hw hr1 hr2).1
      · exact (smart_resize_big_branch h w hh hw hr1 hr2).2
    · rw [if_neg hbig]
      by_cases hsmall : max 28 (round_by_factor h 28) * max 28 (round_by_factor w 28) < 78400
      · rw [if_pos hsmall]
        refine ⟨_, _, rfl, dvd_mul_left 28 _, dvd_mul_left 28 _, ?_, ?_⟩
        · exact (smart_resize_small_branch h w hh hw hr1 hr2).1
        · exact (smart_resize_small_branch h w hh hw hr1 hr2).2
      · rw [if_neg hsmall]
        exact ⟨_, _, rfl, dvd_max_round h, dvd_max_round w, by omega, by omega⟩
  · intro hr
    unfold smart_resize
    rw [if_neg hz, if_pos hr]

/-- Witness for C8 at the concrete frame 1000 by 2000 (aspect ratio 2). -/
theorem C8_smart_resize_factor_and_band_witness :
    0 < 1000 ∧ 0 < 2000 ∧ max 1000 2000 ≤ 200 * min 1000 2000 ∧
    ∃ H W, smart_resize 1000 2000 28 78400 12845056 = .ok (H, W) ∧
      28 ∣ H ∧ 28 ∣ W ∧ 78400 ≤ H * W ∧ H * W ≤ 12845056 :=
  ⟨by norm_num, by norm_num, by norm_num,
   (C8_smart_resize_factor_and_band 1000 2000 (by norm_num) (by norm_num)).1 (by norm_num)⟩

/-- Helper: a stopping pass is propagated unchanged by `runLoop`
(no retry wraps a stop). -/
theorem runLoop_stop {τ α : Type} (env : LoopEnv τ α) (maxA : ℕ) (st st' : LoopSt τ α)
    (o : LoopOutcome τ α) (fuel : ℕ) (h : loopPass env maxA st = .stop o st') :
    runLoop env maxA (fuel + 1) st = some (o, st') := by
  simp [runLoop, h]

/-- C1 counterexample: a pass whose parse fails continues with the
iteration counter incremented (from 0 to 1), and with ceiling 2 a model
whose output never parses exhausts the budget after two recovery turns
with zero dispatches — so failed turns do consume the ceiling, contrary
to the claim that the counter is not incremented and the ceiling bounds
only successful dispatch cycles. -/
theorem C1_retry_counterexample :
    loopPass envRetry 5 ⟨0, [], [0], .text 0, 1, 0, 0⟩ =
      .cont ⟨1, [], [0, 7], .text 7, 2, 0, 0⟩ ∧
    runLoop envRetry 2 3 ⟨0, [], [0], .text 0, 1, 0, 0⟩ =
      some (.budgetExceeded, ⟨3, [], [0, 7, 7], .text 7, 3, 0, 0⟩) := by decide

/-- C1 (amended): when parse or synthesis of the current response fails
(and the budget is not exhausted), the controller re-issues the fixed
recovery instruction `The action failed. Try again` as the next model
turn and continues the loop — but the iteration counter is incremented
on this pass like on any other, so the configured ceiling bounds all
passes (including recovery turns), not only successful dispatch cycles. -/
theorem C1_retry_reissues_and_increments {τ α : Type} (env : LoopEnv τ α) (maxA : ℕ)
    (st : LoopSt τ α) (t : τ) (r : Resp τ)
    (hresp : st.resp = .text t)
    (hperr : env.classify t = .perr)
    (hbudget : st.iteration + 1 ≤ maxA)
    (hretry : env.agentCall recoveryInstruction st.nInvoke = .ok r) :
    loopPass env maxA st =
      .cont { st with iteration := st.iteration + 1, nInvoke := st.nInvoke + 1,
                      resp := r, msgs := pushMsg st.msgs r } := by
  have hnb : ¬maxA < st.iteration + 1 := by omega
  simp [loopPass, retryStep, hresp, hperr, hretry, hnb]

/-- Witness for the amended C1 at a concrete state and environment. -/
theorem C1_retry_reissues_and_increments_witness :
    loopPass envRetry 5 ⟨0, [], [0], .text 0, 1, 0, 0⟩ =
      .cont { iteration := 1, trace := [], msgs := [0, 7], resp := .text 7,
              nInvoke := 2, nDispatch := 0, nShot := 0 } :=
  C1_retry_reissues_and_increments envRetry 5 ⟨0, [], [0], .text 0, 1, 0, 0⟩ 0 (.text 7)
    rfl rfl (by decide) rfl

/-- C7: on an explicit dispatch failure (`success=false`) the loop first
records a failed ExecutionStep and then raises the fatal `RuntimeError`
carrying the offending action; `runLoop` propagates it immediately to the
caller with no self-retry. -/
theorem C7_dispatch_failure_fatal {τ α : Type} (env : LoopEnv τ α) (maxA : ℕ)
    (st : LoopSt τ α) (t : τ) (a : α)
    (hresp : st.resp = .text t)
    (hact : env.classify t = .act a)
    (hdisp : env.dispatch st.nDispatch = .result false)
    (hbudget : st.iteration + 1 ≤ maxA) :
    loopPass env maxA st =
      .stop (.raised (.dispatchFailed a))
        { st with iteration := st.iteration + 1, nDispatch := st.nDispatch + 1,
                  trace := st.trace ++ [⟨a, false⟩] } ∧
    ∀ fuel, runLoop env maxA (fuel + 1) st =
      some (.raised (.dispatchFailed a),
        { st with iteration := st.iteration + 1, nDispatch := st.nDispatch + 1,
                  trace := st.trace ++ [⟨a, false⟩] }) := by
  have hnb : ¬maxA < st.iteration + 1 := by omega
  have hpass : loopPass env maxA st =
      .stop (.raised (.dispatchFailed a))
        { st with iteration := st.iteration + 1, nDispatch := st.nDispatch + 1,
                  trace := st.trace ++ [⟨a, false⟩] } := by
    simp [loopPass, hresp, hact, hdisp, hnb]
  exact ⟨hpass, fun fuel => runLoop_stop env maxA st _ _ fuel hpass⟩

/-- Witness for C7 at a concrete state and environment. -/
theorem C7_dispatch_failure_fatal_witness :
    loopPass envDispatchFail 5 ⟨0, [], [0], .text 0, 1, 0, 0⟩ =
      .stop (.raised (.dispatchFailed 9))
        { iteration := 1, trace := [⟨9, false⟩], msgs := [0], resp := .text 0,
          nInvoke := 1, nDispatch := 1, nShot := 0 } ∧
    ∀ fuel, runLoop envDispatchFail 5 (fuel + 1) ⟨0, [], [0], .text 0, 1, 0, 0⟩ =
      some (.raised (.dispatchFailed 9),
        { iteration := 1, trace := [⟨9, false⟩], msgs := [0], resp := .text 0,
          nInvoke := 1, nDispatch := 1, nShot := 0 }) :=
  C7_dispatch_failure_fatal envDispatchFail 5 ⟨0, [], [0], .text 0, 1, 0, 0⟩ 0 9
    rfl rfl rfl (by decide)

/-- Helper: under an environment with no failures (every model call
returns a text, every parse yields a retry or a dispatchable action,
every dispatch succeeds, every screenshot succeeds or retries), a
non-final pass continues, incrementing the iteration counter and
performing exactly one model invocation. -/
theorem loopPass_advances {τ α : Type} (env : LoopEnv τ α) (maxA : ℕ) (st : LoopSt τ α) (t : τ)
    (ht : st.resp = .text t)
    (hcl : env.classify t = .perr ∨ ∃ a, env.classify t = .act a)
    (hdisp : ∀ n, env.dispatch n = .result true)
    (hshot : ∀ n, env.shot n = .ok ∨ env.shot n = .exn)
    (hinv : ∀ n, ∃ u, env.invoke n = .ok (.text u))
    (hretry : ∀ s n, ∃ u, env.agentCall s n = .ok (.text u))
    (hbudget : st.iteration + 1 ≤ maxA) :
    ∃ st', loopPass env maxA st = .cont st' ∧ st'.iteration = st.iteration + 1 ∧
      st'.nInvoke = st.nInvoke + 1 ∧ ∃ u, st'.resp = .text u := by
  have hnb : ¬maxA < st.iteration + 1 := by omega
  rcases hcl with hcl | ⟨a, hcl⟩
  · obtain ⟨u, hag⟩ := hretry recoveryInstruction st.nInvoke
    simp only [loopPass, retryStep, ht, hcl, hag, hnb, if_false]
    exact ⟨_, rfl, by simp, by simp, u, by simp⟩
  · rcases hshot st.nShot with hsh | hsh
    · obtain ⟨u, hin⟩ := hinv st.nInvoke
      simp only [loopPass, ht, hcl, hdisp, hnb, if_false, hsh, hin]
      exact ⟨_, rfl, by simp, by simp, u, by simp⟩
    · obtain ⟨u, hag⟩ := hretry recoveryInstruction st.nInvoke
      simp only [loopPass, retryStep, ht, hcl, hdisp, hnb, if_false, hsh, hag]
      exact ⟨_, rfl, by simp, by simp, u, by simp⟩

/-- Helper: the budget induction behind C2, generalized over the distance
to the ceiling. -/
theorem runLoop_budget_aux {τ α : Type} (env : LoopEnv τ α) (maxA : ℕ)
    (hcl : ∀ t : τ, env.classify t = .perr ∨ ∃ a, env.classify t = .act a)
    (hdisp : ∀ n, env.dispatch n = .result true)
    (hshot : ∀ n, env.shot n = .ok ∨ env.shot n = .exn)
    (hinv : ∀ n, ∃ u, env.invoke n = .ok (.text u))
    (hretry : ∀ s n, ∃ u, env.agentCall s n = .ok (.text u)) :
    ∀ (j : ℕ) (st : LoopSt τ α), st.iteration + j = maxA → (∃ t, st.resp = .text t) →
      ∃ stF, runLoop env maxA (j + 1) st = some (.budgetExceeded, stF) ∧
        stF.nInvoke = st.nInvoke + j := by
  intro j
  induction j with
  | zero =>
    intro st hiter _
    have hlt : maxA < st.iteration + 1 := by omega
    refine ⟨{ st with iteration := st.iteration + 1 }, ?_, by simp⟩
    simp [runLoop, loopPass, hlt]
  | succ j ih =>
    intro st hiter hresp
    obtain ⟨t, ht⟩ := hresp
    obtain ⟨st', hpass, hit, hninv, hresp'⟩ :=
      loopPass_advances env maxA st t ht (hcl t) hdisp hshot hinv hretry (by omega)
    obtain ⟨stF, hrun, hn⟩ := ih st' (by omega) hresp'
    refine ⟨stF, ?_, by omega⟩
    have : runLoop env maxA (j + 1 + 1) st = runLoop env maxA (j + 1) st' := by
      simp [runLoop, hpass]
    rw [this, hrun]

/-- C2: under a ceiling of N, for every run in which the model always
answers, never emits `finished`, and every dispatched action succeeds,
the loop terminates by returning the budget-exceeded result as a normal
(non-exceptional) value after performing exactly N in-loop model
invocations (so at most N). -/
theorem C2_budget_bounds_invocations {τ α : Type} (env : LoopEnv τ α) (Nc : ℕ)
    (st0 : LoopSt τ α)
    (hcl : ∀ t : τ, env.classify t = .perr ∨ ∃ a, env.classify t = .act a)
    (hdisp : ∀ n, env.dispatch n = .result true)
    (hshot : ∀ n, env.shot n = .ok ∨ env.shot n = .exn)
    (hinv : ∀ n, ∃ u, env.invoke n = .ok (.text u))
    (hretry : ∀ s n, ∃ u, env.agentCall s n = .ok (.text u))
    (hit : st0.iteration = 0) (hresp : ∃ t, st0.resp = .text t) :
    ∃ stF, runLoop env Nc (Nc + 1) st0 = some (.budgetExceeded, stF) ∧
      stF.nInvoke = st0.nInvoke + Nc ∧ stF.nInvoke - st0.nInvoke ≤ Nc := by
  obtain ⟨stF, hrun, hn⟩ :=
    runLoop_budget_aux env Nc hcl hdisp hshot hinv hretry Nc st0 (by omega) hresp
  exact ⟨stF, hrun, hn, by omega⟩

/-- Witness for C2 at ceiling 3 in a concrete never-finishing
environment. -/
theorem C2_budget_bounds_invocations_witness :
    ∃ stF, runLoop envNeverDone 3 4 ⟨0, [], [1], .text 1, 1, 0, 0⟩ =
      some (.budgetExceeded, stF) ∧ stF.nInvoke = 1 + 3 ∧ stF.nInvoke - 1 ≤ 3 :=
  C2_budget_bounds_invocations envNeverDone 3 ⟨0, [], [1], .text 1, 1, 0, 0⟩
    (fun _ => Or.inr ⟨4, rfl⟩) (fun _ => rfl) (fun _ => Or.inl rfl)
    (fun _ => ⟨1, rfl⟩) (fun _ _ => ⟨2, rfl⟩) rfl ⟨1, rfl⟩

/-- C6: a channel disconnect signaled at any suspension point — the
initial screenshot, the initial or in-loop model invocation, the dispatch
round, the post-dispatch screenshot, or the recovery call — is re-raised
immediately, is never turned into a retry, and the recorded trace keeps
exactly the ExecutionSteps already recorded before the disconnect (in
particular the successful step recorded before a post-dispatch
screenshot). -/
theorem C6_disconnect_always_reraised {τ α : Type} (env : LoopEnv τ α) (maxA fuel : ℕ)
    (st : LoopSt τ α) (t : τ) (a : α) :
    (runStandalone env .disconnect maxA fuel = some (.raised .disconnect, initSt τ α) ∧
      (initSt τ α).trace = []) ∧
    (env.invoke 0 = .disconnect →
      runStandalone env .ok maxA fuel = some (.raised .disconnect, initSt τ α)) ∧
    (st.resp = .text t → env.classify t = .act a → st.iteration + 1 ≤ maxA →
      env.dispatch st.nDispatch = .disconnect →
      ∃ st', loopPass env maxA st = .stop (.raised .disconnect) st' ∧ st'.trace = st.trace) ∧
    (st.resp = .text t → env.classify t = .act a → st.iteration + 1 ≤ maxA →
      env.dispatch st.nDispatch = .result true → env.shot st.nShot = .disconnect →
      ∃ st', loopPass env maxA st = .stop (.raised .disconnect) st' ∧
        st'.trace = st.trace ++ [⟨a, true⟩]) ∧
    (st.resp = .text t → env.classify t = .act a → st.iteration + 1 ≤ maxA →
      env.dispatch st.nDispatch = .result true → env.shot st.nShot = .ok →
      env.invoke st.nInvoke = .disconnect →
      ∃ st', loopPass env maxA st = .stop (.raised .disconnect) st' ∧
        st'.trace = st.trace ++ [⟨a, true⟩]) ∧
    (st.resp = .text t → env.classify t = .perr → st.iteration + 1 ≤ maxA →
      env.agentCall recoveryInstruction st.nInvoke = .disconnect →
      ∃ st', loopPass env maxA st = .stop (.raised .disconnect) st' ∧ st'.trace = st.trace) ∧
    (∀ o st', loopPass env maxA st = .stop o st' →
      runLoop env maxA (fuel + 1) st = some (o, st')) := by
  refine ⟨⟨by simp [runStandalone], rfl⟩, ?_, ?_, ?_, ?_, ?_, ?_⟩
  · intro h
    simp [runStandalone, h]
  · intro ht hcl hb hd
    have hnb : ¬maxA < st.iteration + 1 := by omega
    simp only [loopPass, ht, hcl, hd, hnb, if_false]
    exact ⟨_, rfl, by simp⟩
  · intro ht hcl hb hd hs
    have hnb : ¬maxA < st.iteration + 1 := by omega
    simp only [loopPass, ht, hcl, hd, hs, hnb, if_false]
    exact ⟨_, rfl, by simp⟩
  · intro ht hcl hb hd hs hi
    have hnb : ¬maxA < st.iteration + 1 := by omega
    simp only [loopPass, ht, hcl, hd, hs, hi, hnb, if_false]
    exact ⟨_, rfl, by simp⟩
  · intro ht hcl hb hg
    have hnb : ¬maxA < st.iteration + 1 := by omega
    simp only [loopPass, retryStep, ht, hcl, hg, hnb, if_false]
    exact ⟨_, rfl, by simp⟩
  · intro o st' h
    exact runLoop_stop env maxA st st' o fuel h

/-- Witness for C6: dispatch-time disconnect at a concrete state. -/
theorem C6_disconnect_always_reraised_witness :
    ∃ st', loopPass envDisc 5 ⟨0, [⟨4, true⟩], [1], .text 1, 1, 1, 1⟩ =
      .stop (.raised .disconnect) st' ∧ st'.trace = [⟨4, true⟩] :=
  (C6_disconnect_always_reraised envDisc 5 0 ⟨0, [⟨4, true⟩], [1], .text 1, 1, 1, 1⟩ 1
    4).2.2.1 rfl rfl (by decide) rfl

/-- C3 counterexample: the specified text parses to exactly one action,
but its stored action_type is the literal `click` — the pipeline never
rewrites the `click` alias to `left_single` (only `press`/`release` are
renamed), so the claimed canonical action_type `left_single` is wrong. -/
theorem C3_click_not_left_single :
    parse_action_to_structure_output sampleClickText 1000 2000 =
      .ok [⟨Option.none, some "T".data, some "click".data,
        [("start_box".data, .vBox [⟨100, 1988⟩, ⟨200, 1008⟩, ⟨100, 1988⟩, ⟨200, 1008⟩])],
        sampleClickText⟩] ∧
    (some "click".data : Option Chars) ≠ some "left_single".data := by
  exact ⟨by decide, by decide⟩

/-- C3 (amended): parsing the text
`Thought: T\nAction: click(start_box='(100,200)')` against a 1000 by 2000
frame under the smart policy yields exactly one action whose action_type
is `click` (the synonym the command synthesizer treats like
`left_single`) and whose start_box is a 4-component box with every
component inside the unit interval. -/
theorem C3_parse_click_normalized_box :
    ∃ act, parse_action_to_structure_output sampleClickText 1000 2000 = .ok [act] ∧
      act.action_type = some "click".data ∧
      ∃ box, dictGet "start_box".data act.action_inputs = some (.vBox box) ∧
        box.length = 4 ∧ ∀ q ∈ box, q.mem01 :=
  ⟨⟨Option.none, some "T".data, some "click".data,
    [("start_box".data, .vBox [⟨100, 1988⟩, ⟨200, 1008⟩, ⟨100, 1988⟩, ⟨200, 1008⟩])],
    sampleClickText⟩,
   by decide, by decide,
   [⟨100, 1988⟩, ⟨200, 1008⟩, ⟨100, 1988⟩, ⟨200, 1008⟩],
   by decide, by decide, by decide⟩

/-- C4 counterexample: the clause `click(start_box=foo)` carries a
non-literal argument, yet `parse_action` does not fail — it silently
returns the call with the argument value mapped to `None`. -/
theorem C4_nonliteral_silently_accepted :
    parse_action "click(start_box=foo)".data =
      some ⟨some "click".data, [("start_box".data, PyValue.none)]⟩ ∧
    parse_action "click(start_box=foo)".data ≠ Option.none := by decide

/-- Helper: a parameter list containing a `None` value always makes the
normalization loop raise, and only with an `AttributeError` (from
`param.lstrip()`) or a `float()` error from an earlier box parameter —
never with the clause-carrying parse error. -/
theorem normalizeInputs_none_errors (aty : Option Chars) (smartH smartW : ℕ) :
    ∀ (args : List (Chars × PyValue)) (dict : List (Chars × NormVal)) (k : Chars),
      (k, PyValue.none) ∈ args →
      ∃ e, normalizeInputs aty smartH smartW args dict = .error e ∧
        (e = .attributeErr ∨ ∃ tok, e = .floatErr tok) := by
  intro args
  induction args with
  | nil => intro dict k hmem; simp at hmem
  | cons hd tl ih =>
    intro dict k hmem
    rcases hd with ⟨pn, pv⟩
    rcases List.mem_cons.mp hmem with heq | hmem'
    · have hpv : pv = PyValue.none := by
        have := congrArg Prod.snd heq
        simpa using this.symm
      subst hpv
      exact ⟨.attributeErr, by simp [normalizeInputs], Or.inl rfl⟩
    · by_cases hemp : pv = PyValue.str []
      · subst hemp
        have := ih dict k hmem'
        simpa [normalizeInputs] using this
      · cases pv with
        | str s =>
          simp only [normalizeInputs, if_neg hemp]
          by_cases hbox : (containsL "start_box".data
              (if aty = some "hotkey".data && containsL "key".data pn then "hotkey".data
               else pn) ||
            containsL "end_box".data
              (if aty = some "hotkey".data && containsL "key".data pn then "hotkey".data
               else pn)) = true
          · simp only [hbox, if_true]
            rcases hbf : boxFloats smartH smartW (boxTokens
                (if containsL "press".data
                      (if aty = some "hotkey".data && containsL "key".data pn then "hotkey".data
                       else pn) ||
                    containsL "key".data
                      (if aty = some "hotkey".data && containsL "key".data pn then "hotkey".data
                       else pn)
                 then canonKeyParam (lstripL s) else lstripL s)) 0 with e | nums
            · refine ⟨e, by simp [hbf], ?_⟩
              have : ∀ (toks : List Chars) (i : ℕ) (e2 : PErr),
                  boxFloats smartH smartW toks i = .error e2 → ∃ tok, e2 = .floatErr tok := by
                intro toks
                induction toks with
                | nil => intro i e2 h; simp [boxFloats] at h
                | cons t2 ts ih2 =>
                  intro i e2 h
                  simp only [boxFloats] at h
                  rcases hpr : parseRat t2 with _ | v
                  · rw [hpr] at h
                    exact ⟨t2, by simpa using h.symm⟩
                  · rw [hpr] at h
                    rcases hrec : boxFloats smartH smartW ts (i + 1) with e3 | l3
                    · rw [hrec] at h
                      simp at h
                      exact h ▸ ih2 (i + 1) e3 hrec
                    · rw [hrec] at h
                      simp at h
              exact Or.inr (this _ _ _ hbf)
            · simp only [hbf]
              exact ih _ k hmem'
          · simp only [Bool.not_eq_true] at hbox
            simp only [hbox, if_false]
            exact ih _ k hmem'
        | num f => exact ⟨.attributeErr, by simp [normalizeInputs, hemp], Or.inl rfl⟩
        | bool b => exact ⟨.attributeErr, by simp [normalizeInputs, hemp], Or.inl rfl⟩
        | none => exact ⟨.attributeErr, by simp [normalizeInputs, hemp], Or.inl rfl⟩

/-- C4 (amended): a non-literal keyword argument is **not** a parse
error: `parse_action` silently accepts the clause, mapping the argument
value to `None`; the failure only surfaces later, when the normalization
loop calls `lstrip` on the null value and raises a generic error that
does not carry the offending clause. -/
theorem C4_nonliteral_not_parse_error (s : Chars) (c : AstCall) (k : Chars)
    (hp : parseClause s = some c) (hk : (k, AstArg.nonLiteral) ∈ c.keywords) :
    ∃ pa, parse_action s = some pa ∧ (k, PyValue.none) ∈ pa.args ∧
      ∀ (aty : Option Chars) (smartH smartW : ℕ) (dict : List (Chars × NormVal)),
        ∃ e, normalizeInputs aty smartH smartW pa.args dict = .error e ∧
          ∀ cl, e ≠ .cantParse cl := by
  refine ⟨astToParsed c, by simp [parse_action, hp], ?_, ?_⟩
  · simp only [astToParsed]
    exact List.mem_map.mpr ⟨(k, .nonLiteral), hk, rfl⟩
  · intro aty smartH smartW dict
    have hmem : (k, PyValue.none) ∈ (astToParsed c).args := by
      simp only [astToParsed]
      exact List.mem_map.mpr ⟨(k, .nonLiteral), hk, rfl⟩
    obtain ⟨e, he, hkind⟩ :=
      normalizeInputs_none_errors aty smartH smartW (astToParsed c).args dict k hmem
    refine ⟨e, he, ?_⟩
    intro cl
    rcases hkind with h | ⟨tok, h⟩ <;> subst h <;> simp

/-- Witness for the amended C4 at the concrete clause
`click(start_box=foo)`. -/
theorem C4_nonliteral_not_parse_error_witness :
    ∃ pa, parse_action "click(start_box=foo)".data = some pa ∧
      ("start_box".data, PyValue.none) ∈ pa.args ∧
      ∀ (aty : Option Chars) (smartH smartW : ℕ) (dict : List (Chars × NormVal)),
        ∃ e, normalizeInputs aty smartH smartW pa.args dict = .error e ∧
          ∀ cl, e ≠ .cantParse cl :=
  C4_nonliteral_not_parse_error "click(start_box=foo)".data
    ⟨some "click".data, [("start_box".data, .nonLiteral)]⟩ "start_box".data
    (by decide) (by decide)

/-- C9 counterexample: normalizing a `keydown` action with the parameter
`press='enter'` leaves **two** entries — the canonical `key` entry and a
duplicate under the original name `press` — because the `else` arm of the
box dispatch stores every non-box parameter again under its own name. -/
theorem C9_duplicate_under_original_name :
    normalizeInputs (some "keydown".data) 1008 1988
      [("press".data, .str "enter".data)] [] =
      .ok [("key".data, .vStr "enter".data), ("press".data, .vStr "enter".data)] ∧
    dictGet "press".data
      [("key".data, .vStr "enter".data), ("press".data, .vStr "enter".data)] ≠
      Option.none := by decide

/-- C9 (amended): a parameter named `key`, `press` or `hotkey` (with a
non-empty value) always produces the canonical `key` entry with the
canonicalized value; but the same value is additionally stored under the
(possibly `hotkey`-renamed) original parameter name, so a second entry
remains in every case except a `key` parameter of a non-hotkey action. -/
theorem C9_key_canonical_but_duplicated (aty : Option Chars) (smartH smartW : ℕ) (v : Chars)
    (hv : v ≠ []) :
    (aty ≠ some "hotkey".data →
      normalizeInputs aty smartH smartW [("key".data, .str v)] [] =
        .ok [("key".data, .vStr (canonKeyParam (lstripL v)))]) ∧
    (aty = some "hotkey".data →
      normalizeInputs aty smartH smartW [("key".data, .str v)] [] =
        .ok [("key".data, .vStr (canonKeyParam (lstripL v))),
             ("hotkey".data, .vStr (canonKeyParam (lstripL v)))]) ∧
    (normalizeInputs aty smartH smartW [("press".data, .str v)] [] =
      .ok [("key".data, .vStr (canonKeyParam (lstripL v))),
           ("press".data, .vStr (canonKeyParam (lstripL v)))]) ∧
    (normalizeInputs aty smartH smartW [("hotkey".data, .str v)] [] =
      .ok [("key".data, .vStr (canonKeyParam (lstripL v))),
           ("hotkey".data, .vStr (canonKeyParam (lstripL v)))]) := by
  have hsv : ¬(PyValue.str v = PyValue.str []) := by
    intro h
    exact hv (by injection h)
  refine ⟨?_, ?_, ?_, ?_⟩
  · intro hne
    simp [normalizeInputs, hsv, hne,
      show containsL "key".data "key".data = true from by decide,
      show containsL "press".data "key".data = false from by decide,
      show containsL "start_box".data "key".data = false from by decide,
      show containsL "end_box".data "key".data = false from by decide,
      show stripL "key".data = "key".data from by decide,
      dictInsert]
  · intro heq
    simp [normalizeInputs, hsv, heq,
      show containsL "key".data "key".data = true from by decide,
      show containsL "key".data "hotkey".data = true from by decide,
      show containsL "press".data "hotkey".data = false from by decide,
      show containsL "start_box".data "hotkey".data = false from by decide,
      show containsL "end_box".data "hotkey".data = false from by decide,
      show stripL "hotkey".data = "hotkey".data from by decide,
      show ¬("key".data = "hotkey".data) from by decide,
      dictInsert]
  · simp [normalizeInputs, hsv,
      show containsL "key".data "press".data = false from by decide,
      show containsL "press".data "press".data = true from by decide,
      show containsL "start_box".data "press".data = false from by decide,
      show containsL "end_box".data "press".data = false from by decide,
      show stripL "press".data = "press".data from by decide,
      show ¬("key".data = "press".data) from by decide,
      dictInsert]
  · by_cases haty : aty = some "hotkey".data
    · simp [normalizeInputs, hsv, haty,
        show containsL "key".data "hotkey".data = true from by decide,
        show containsL "press".data "hotkey".data = false from by decide,
        show containsL "start_box".data "hotkey".data = false from by decide,
        show containsL "end_box".data "hotkey".data = false from by decide,
        show stripL "hotkey".data = "hotkey".data from by decide,
        show ¬("key".data = "hotkey".data) from by decide,
        dictInsert]
    · simp [normalizeInputs, hsv, haty,
        show containsL "key".data "hotkey".data = true from by decide,
        show containsL "press".data "hotkey".data = false from by decide,
        show containsL "start_box".data "hotkey".data = false from by decide,
        show containsL "end_box".data "hotkey".data = false from by decide,
        show stripL "hotkey".data = "hotkey".data from by decide,
        show ¬("key".data = "hotkey".data) from by decide,
        dictInsert]

/-- Witness for the amended C9: a `keydown` action with `press='enter'`
gets both the canonical entry and the duplicate. -/
theorem C9_key_canonical_but_duplicated_witness :
    normalizeInputs (some "keydown".data) 1008 1988
      [("press".data, .str "enter".data)] [] =
      .ok [("key".data, .vStr (canonKeyParam (lstripL "enter".data))),
           ("press".data, .vStr (canonKeyParam (lstripL "enter".data)))] :=
  (C9_key_canonical_but_duplicated (some "keydown".data) 1008 1988 "enter".data
    (by decide)).2.2.1

/-- Helper: one synthesis step on a `finished` action replaces the whole
accumulated output with the `DONE` sentinel, whatever was accumulated. -/
theorem synthStep_finished (H W : ℕ) (swap : Bool) (response_id : ℕ) (acc : List PyCmd)
    (r : StructAction) (h : r.action_type = some "finished".data) :
    synthStep H W swap response_id acc r = .ok [.doneS] := by
  simp [synthStep, h,
    show ¬((some "finished".data : Option Chars) = some "hotkey".data) from by decide,
    show ¬((some "finished".data : Option Chars) = some "press".data ∨
           (some "finished".data : Option Chars) = some "keydown".data) from by decide,
    show ¬((some "finished".data : Option Chars) = some "release".data ∨
           (some "finished".data : Option Chars) = some "keyup".data) from by decide,
    show ¬((some "finished".data : Option Chars) = some "type".data) from by decide,
    show ¬((some "finished".data : Option Chars) = some "drag".data ∨
           (some "finished".data : Option Chars) = some "select".data) from by decide,
    show ¬((some "finished".data : Option Chars) = some "scroll".data) from by decide,
    show ¬((some "finished".data : Option Chars) = some "click".data ∨
           (some "finished".data : Option Chars) = some "left_single".data ∨
           (some "finished".data : Option Chars) = some "left_double".data ∨
           (some "finished".data : Option Chars) = some "right_single".data ∨
           (some "finished".data : Option Chars) = some "hover".data) from by decide]

/-- Helper: if the last response of a batch is a `finished` action and the
synthesis loop succeeds, the final output is exactly the sentinel. -/
theorem synthAux_finished_last (H W : ℕ) (swap : Bool) :
    ∀ (rs : List StructAction) (response_id : ℕ) (acc out : List PyCmd) (r : StructAction),
      rs.getLast? = some r → r.action_type = some "finished".data →
      synthAux H W swap response_id acc rs = .ok out → out = [.doneS] := by
  intro rs
  induction rs with
  | nil => intro _ _ _ _ hlast; simp at hlast
  | cons x tl ih =>
    intro response_id acc out r hlast hfin hrun
    cases tl with
    | nil =>
      have hx : x = r := by simpa using hlast
      subst hx
      rw [show synthAux H W swap response_id acc [x] =
            (match synthStep H W swap response_id acc x with
             | .error e => .error e
             | .ok acc2 => synthAux H W swap (response_id + 1) acc2 []) from rfl,
          synthStep_finished H W swap response_id acc x hfin] at hrun
      simpa [synthAux] using hrun.symm
    | cons y tl2 =>
      have hlast2 : (y :: tl2).getLast? = some r := by
        simpa [List.getLast?_cons_cons] using hlast
      rw [show synthAux H W swap response_id acc (x :: y :: tl2) =
            (match synthStep H W swap response_id acc x with
             | .error e => .error e
             | .ok acc2 => synthAux H W swap (response_id + 1) acc2 (y :: tl2)) from rfl] at hrun
      rcases hstep : synthStep H W swap response_id acc x with e | acc2
      · rw [hstep] at hrun
        simp at hrun
      · rw [hstep] at hrun
        exact ih (response_id + 1) acc2 out r hlast2 hfin hrun

/-- C10: whenever the command synthesizer processes a `finished` action
the accumulated output is replaced wholesale by the `DONE` sentinel; in
particular, for any batch whose last action is `finished` and whose
synthesis completes, all commands synthesized for the earlier actions are
discarded and the output is exactly the sentinel. -/
theorem C10_finished_discards_output (H W : ℕ) (swap : Bool) :
    (∀ (response_id : ℕ) (acc : List PyCmd) (r : StructAction),
      r.action_type = some "finished".data →
      synthStep H W swap response_id acc r = .ok [.doneS]) ∧
    (∀ (responses : List StructAction) (out : List PyCmd) (r : StructAction),
      responses.getLast? = some r → r.action_type = some "finished".data →
      parsing_response_to_pyautogui_code responses H W swap = .ok out → out = [.doneS]) := by
  constructor
  · exact fun response_id acc r h => synthStep_finished H W swap response_id acc r h
  · intro responses out r hlast hfin hrun
    exact synthAux_finished_last H W swap responses 0 [.header] out r hlast hfin hrun

/-- Witness for C10: a two-action batch (a type action, then `finished`)
synthesizes to exactly the sentinel. -/
theorem C10_finished_discards_output_witness :
    synthStep 1080 1920 true 3
      [.header, .writeCmd "x".data]
      ⟨Option.none, some "t".data, some "finished".data, [], []⟩ = .ok [.doneS] ∧
    ([⟨Option.none, some "t".data, some "type".data, [("content".data, .vStr "hi".data)], []⟩,
      ⟨Option.none, some "t".data, some "finished".data, [], []⟩] :
        List StructAction).getLast?.isSome ∧
    ∀ out, parsing_response_to_pyautogui_code
      [⟨Option.none, some "t".data, some "type".data, [("content".data, .vStr "hi".data)], []⟩,
       ⟨Option.none, some "t".data, some "finished".data, [], []⟩] 1080 1920 true = .ok out →
      out = [.doneS] :=
  ⟨(C10_finished_discards_output 1080 1920 true).1 3 [.header, .writeCmd "x".data]
      ⟨Option.none, some "t".data, some "finished".data, [], []⟩ rfl,
   by decide,
   fun out hrun => (C10_finished_discards_output 1080 1920 true).2 _ out
      ⟨Option.none, some "t".data, some "finished".data, [], []⟩ (by decide) rfl hrun⟩

/-- C5: command synthesis for a canonical `drag` action carrying the
4-component boxes the parser actually produces (Python lists) raises the
`TypeError` of `eval` on a non-string — the drag branch lacks the `str()`
guard the click branch has — whereas on stringified boxes it produces the
move-to-start / drag-to-end pair whose coordinates are exactly the box
midpoints times width resp. height, rounded to 3 decimal places. -/
theorem C5_drag_eval_type_error :
    parsing_response_to_pyautogui_code [dragListAction] 1080 1920 true =
      .error .evalTypeErr ∧
    parsing_response_to_pyautogui_code [dragStrAction] 1080 1920 true =
      .ok [.header, .comment [] (some "t".data),
        .moveToCmd (PyFloat.round3 ((((⟨1, 10⟩ : PyFloat).add ⟨3, 10⟩).divNat 2).mulNat 1920))
          (PyFloat.round3 ((((⟨2, 10⟩ : PyFloat).add ⟨4, 10⟩).divNat 2).mulNat 1080)),
        .dragToCmd (PyFloat.round3 ((((⟨5, 10⟩ : PyFloat).add ⟨7, 10⟩).divNat 2).mulNat 1920))
          (PyFloat.round3 ((((⟨6, 10⟩ : PyFloat).add ⟨8, 10⟩).divNat 2).mulNat 1080))] := by
  decide

end R2
